import Mathlib

/-!
Verification development for the RMS_telemetry repository.

The Python source is shallowly embedded: dictionaries become ordered
association lists (`PyDict`), Python values become the inductive `PyVal`,
raised exceptions become `Except PyErr`, and the module-level mutable
parser state of `RMS_telemetry/log.py` becomes the explicit record
`PState` threaded through `parse_log_line`.  All definitions are
executable and structurally recursive so that concrete runs can be
settled with `decide` or `rfl`.
-/

namespace RMS

/-- Model of a Python exception class, used as the error type of the
embedding: a raised exception is `Except.error`. -/
inductive PyErr where
  | keyError
  | valueError
  | typeError
  | indexError
  | nameError
  | attributeError
  | zeroDivisionError
  deriving DecidableEq

/-- Exact rational numbers in normalised form (`den > 0`,
`gcd (|num|) den = 1` for every value built by the smart constructors).
They model Python floats and timestamps — exact for the finite decimal
literals the program manipulates — and all operations reduce inside the
kernel, so concrete runs can be settled by `rfl`/`decide`. -/
structure PyQ where
  num : Int
  den : Nat
  deriving DecidableEq

/-- Build a normalised rational from a numerator and a positive
denominator. -/
def PyQ.norm (n : Int) (d : Nat) : PyQ :=
  if d = 0 then ⟨0, 1⟩
  else
    let g := Nat.gcd n.natAbs d
    ⟨n / (g : Int), d / g⟩

def PyQ.ofInt (n : Int) : PyQ := ⟨n, 1⟩

instance : OfNat PyQ n := ⟨PyQ.ofInt n⟩

def PyQ.add (a b : PyQ) : PyQ :=
  PyQ.norm (a.num * (b.den : Int) + b.num * (a.den : Int)) (a.den * b.den)

def PyQ.sub (a b : PyQ) : PyQ :=
  PyQ.norm (a.num * (b.den : Int) - b.num * (a.den : Int)) (a.den * b.den)

def PyQ.mul (a b : PyQ) : PyQ :=
  PyQ.norm (a.num * b.num) (a.den * b.den)

def PyQ.neg (a : PyQ) : PyQ := ⟨-a.num, a.den⟩

/-- Division (the zero-divisor case is guarded by the callers, matching
Python's `ZeroDivisionError`). -/
def PyQ.div (a b : PyQ) : PyQ :=
  let n := a.num * (b.den : Int)
  let d := (a.den : Int) * b.num
  if d < 0 then PyQ.norm (-n) (-d).toNat else PyQ.norm n d.toNat

instance : Add PyQ := ⟨PyQ.add⟩
instance : Sub PyQ := ⟨PyQ.sub⟩
instance : Mul PyQ := ⟨PyQ.mul⟩
instance : Neg PyQ := ⟨PyQ.neg⟩
instance : Div PyQ := ⟨PyQ.div⟩

def PyQ.ble (a b : PyQ) : Bool := a.num * (b.den : Int) ≤ b.num * (a.den : Int)

def PyQ.blt (a b : PyQ) : Bool := a.num * (b.den : Int) < b.num * (a.den : Int)

instance : LE PyQ := ⟨fun a b => PyQ.ble a b = true⟩
instance : LT PyQ := ⟨fun a b => PyQ.blt a b = true⟩

instance (a b : PyQ) : Decidable (a ≤ b) := by
  unfold LE.le instLEPyQ
  infer_instance

instance (a b : PyQ) : Decidable (a < b) := by
  unfold LT.lt instLTPyQ
  infer_instance

/-- Floor, used by `utcfromtimestamp`. -/
def PyQ.floor (a : PyQ) : Int := Int.fdiv a.num (a.den : Int)

/-- Model of a Python value as it occurs in the telemetry documents:
`None`, bools, ints, floats (modelled as exact rationals, which is exact
for the finite decimal literals the program manipulates), strings, lists
and (insertion-ordered) dictionaries with string keys. -/
inductive PyVal where
  | pnone
  | pbool (b : Bool)
  | pint (n : Int)
  | pfloat (q : PyQ)
  | pstr (s : String)
  | plist (xs : List PyVal)
  | pdict (entries : List (String × PyVal))

/-- A Python dict with string keys, keeping insertion order like Python
dicts do. -/
abbrev PyDict := List (String × PyVal)

mutual

/-- Structural equality test on Python values.  It models the `==` and
`in` tests the source performs, all of which compare strings (Python
cross-type numeric equality is never exercised there). -/
def PyVal.beq : PyVal → PyVal → Bool
  | .pnone, .pnone => true
  | .pbool a, .pbool b => a == b
  | .pint a, .pint b => a == b
  | .pfloat a, .pfloat b => a == b
  | .pstr a, .pstr b => a == b
  | .plist xs, .plist ys => PyVal.beqList xs ys
  | .pdict xs, .pdict ys => PyVal.beqEntries xs ys
  | _, _ => false

def PyVal.beqList : List PyVal → List PyVal → Bool
  | [], [] => true
  | a :: as, b :: bs => PyVal.beq a b && PyVal.beqList as bs
  | _, _ => false

def PyVal.beqEntries : List (String × PyVal) → List (String × PyVal) → Bool
  | [], [] => true
  | (k1, v1) :: as, (k2, v2) :: bs =>
    k1 == k2 && PyVal.beq v1 v2 && PyVal.beqEntries as bs
  | _, _ => false

end

/-- Python truthiness: `bool(v)`. -/
def PyVal.truthy : PyVal → Bool
  | .pnone => false
  | .pbool b => b
  | .pint n => n != 0
  | .pfloat q => q != 0
  | .pstr s => s != ""
  | .plist xs => !xs.isEmpty
  | .pdict d => !d.isEmpty

/-- `key in d` for a Python dict. -/
def dictHas (d : PyDict) (k : String) : Bool :=
  d.any (fun p => p.1 == k)

/-- `d.get(key)`-style total lookup. -/
def dictGet? (d : PyDict) (k : String) : Option PyVal :=
  (d.find? (fun p => p.1 == k)).map (fun p => p.2)

/-- `d[key]`, raising `KeyError` when the key is absent. -/
def dictGet (d : PyDict) (k : String) : Except PyErr PyVal :=
  match dictGet? d k with
  | some v => .ok v
  | none => .error .keyError

/-- `d[key] = v`: replaces the value in place when the key exists,
otherwise appends the new pair at the end (Python dict insertion
order). -/
def dictSet (d : PyDict) (k : String) (v : PyVal) : PyDict :=
  if dictHas d k then
    d.map (fun p => if p.1 = k then (k, v) else p)
  else
    d ++ [(k, v)]

/-- `del d[key]` at value level (all uses in the source are guarded by a
presence check, so the plain removal is the observed behaviour). -/
def dictDel (d : PyDict) (k : String) : PyDict :=
  d.filter (fun p => p.1 != k)

/-- Two-level lookup `d[k1][k2]` as a total function, for stating
properties of documents. -/
def dictGet2? (d : PyDict) (k1 k2 : String) : Option PyVal :=
  match dictGet? d k1 with
  | some (.pdict inner) => dictGet? inner k2
  | _ => none

/-- `d[k1][k2] = v`, raising like Python when `d[k1]` is missing
(`KeyError`) or not subscript-assignable (`TypeError`). -/
def dictSet2 (d : PyDict) (k1 k2 : String) (v : PyVal) : Except PyErr PyDict :=
  match dictGet? d k1 with
  | none => .error .keyError
  | some (.pdict inner) => .ok (dictSet d k1 (.pdict (dictSet inner k2 v)))
  | some _ => .error .typeError

/-! ### Character and string helpers (Python `str` semantics) -/

/-- Python `\s` over the ASCII range (the only characters the log
stream contains). -/
def isPySpace (c : Char) : Bool :=
  c == ' ' || c == '\t' || c == '\n' || c == '\r' || c == '\x0b' || c == '\x0c'

def isAsciiDigit (c : Char) : Bool := '0' ≤ c && c ≤ '9'
def isAsciiUpper (c : Char) : Bool := 'A' ≤ c && c ≤ 'Z'
def isAsciiLowerUnd (c : Char) : Bool := ('a' ≤ c && c ≤ 'z') || c == '_'

def listStrip (cs : List Char) : List Char :=
  ((cs.dropWhile isPySpace).reverse.dropWhile isPySpace).reverse

/-- Python `s.strip()`. -/
def pyStrip (s : String) : String := ⟨listStrip s.data⟩

/-- Python `s.rstrip()`. -/
def pyRStrip (s : String) : String := ⟨(s.data.reverse.dropWhile isPySpace).reverse⟩

/-- Python `s.startswith(p)`. -/
def pyStarts (s p : String) : Bool := p.data.isPrefixOf s.data

/-- First index of the substring `sub` in `cs`, scanning left to right. -/
def findSubAux (sub : List Char) : List Char → Nat → Option Nat
  | cs, i =>
    if sub.isPrefixOf cs then some i
    else
      match cs with
      | [] => none
      | _ :: rest => findSubAux sub rest (i + 1)

/-- Python `s.find(sub) != -1`. -/
def pyContains (s sub : String) : Bool := (findSubAux sub.data s.data 0).isSome

/-- Python `s.split(sep, maxsplit)` with non-empty separator, with a fuel
argument for structural termination (fuel `cs.length + 1` always
suffices). -/
def pySplitFuel (sep : List Char) : Nat → Option Nat → List Char → List (List Char)
  | 0, _, cs => [cs]
  | fuel + 1, maxs, cs =>
    if maxs = some 0 then [cs]
    else
      match findSubAux sep cs 0 with
      | none => [cs]
      | some i =>
        cs.take i :: pySplitFuel sep fuel (maxs.map (· - 1)) (cs.drop (i + sep.length))

/-- Python `s.split(sep[, maxsplit])` for a non-empty separator. -/
def pySplit (s sep : String) (maxs : Option Nat) : List String :=
  (pySplitFuel sep.data (s.data.length + 1) maxs s.data).map (fun cs => ⟨cs⟩)

/-- Index of the last occurrence of the character `c`. -/
def lastIdxOf (c : Char) (cs : List Char) : Option Nat :=
  match cs.reverse.findIdx? (fun x => x == c) with
  | some j => some (cs.length - 1 - j)
  | none => none

/-- Python `s.rsplit(c, 1)` for a single-character separator. -/
def pyRSplitChar1 (s : String) (c : Char) : List String :=
  match lastIdxOf c s.data with
  | none => [s]
  | some i => [⟨s.data.take i⟩, ⟨s.data.drop (i + 1)⟩]

/-- Whitespace tokenisation: Python `s.split()` / `s.split(None)`. -/
def pySplitWsAux : Nat → List Char → List (List Char)
  | 0, _ => []
  | _ + 1, [] => []
  | fuel + 1, cs =>
    let cs1 := cs.dropWhile isPySpace
    match cs1 with
    | [] => []
    | _ =>
      let tok := cs1.takeWhile (fun c => !isPySpace c)
      tok :: pySplitWsAux fuel (cs1.drop tok.length)

def pySplitWs (s : String) : List String :=
  (pySplitWsAux (s.data.length + 1) s.data).map (fun cs => ⟨cs⟩)

/-- Python `s.split(None, 1)`. -/
def pySplitWs1 (s : String) : List String :=
  let cs := s.data.dropWhile isPySpace
  match cs with
  | [] => []
  | _ =>
    let tok := cs.takeWhile (fun c => !isPySpace c)
    let rest := (cs.drop tok.length).dropWhile isPySpace
    match rest with
    | [] => [⟨tok⟩]
    | _ => [⟨tok⟩, ⟨rest⟩]

/-- Python `s.rsplit(None, 1)`. -/
def pyRSplitWs1 (s : String) : List String :=
  let rev := (s.data.reverse.dropWhile isPySpace)
  match rev with
  | [] => []
  | _ =>
    let tokRev := rev.takeWhile (fun c => !isPySpace c)
    let restRev := (rev.drop tokRev.length).dropWhile isPySpace
    match restRev with
    | [] => [⟨tokRev.reverse⟩]
    | _ => [⟨restRev.reverse⟩, ⟨tokRev.reverse⟩]

/-- Python `s.replace(pat, repl)` (all occurrences, non-empty pattern),
with fuel for structural termination. -/
def pyReplaceFuel (pat repl : List Char) : Nat → List Char → List Char
  | 0, cs => cs
  | fuel + 1, cs =>
    match findSubAux pat cs 0 with
    | none => cs
    | some i =>
      cs.take i ++ repl ++ pyReplaceFuel pat repl fuel (cs.drop (i + pat.length))

def pyReplace (s pat repl : String) : String :=
  ⟨pyReplaceFuel pat.data repl.data (s.data.length + 1) s.data⟩

/-! ### Python numeric literal parsing (`int(s)` / `float(s)`) -/

/-- Digit run with Python underscore grouping (an underscore must sit
between two digits). -/
def digitsUSAux : List Char → Nat → Option Nat
  | [], acc => some acc
  | '_' :: c :: rest, acc =>
    if isAsciiDigit c then digitsUSAux rest (acc * 10 + (c.toNat - 48)) else none
  | '_' :: [], _ => none
  | c :: rest, acc =>
    if isAsciiDigit c then digitsUSAux rest (acc * 10 + (c.toNat - 48)) else none

def parseDigitsUS : List Char → Option Nat
  | [] => none
  | c :: rest =>
    if isAsciiDigit c then digitsUSAux rest (c.toNat - 48) else none

/-- Python `int(s, 10)`; `none` models the raised `ValueError`. -/
def pyInt (s : String) : Option Int :=
  let cs := listStrip s.data
  match cs with
  | '+' :: rest => (parseDigitsUS rest).map Int.ofNat
  | '-' :: rest => (parseDigitsUS rest).map (fun n => -(n : Int))
  | _ => (parseDigitsUS cs).map Int.ofNat

/-- Digit run (no sign) together with its length, for fraction parsing. -/
def parseDigitsLen : List Char → Option (Nat × Nat)
  | cs =>
    match parseDigitsUS cs with
    | none => none
    | some n => some (n, ((cs.filter isAsciiDigit).length))

/-- Python `float(s)` for finite decimal forms
`[sign] digits [. digits] [e [sign] digits]` (the program only ever
converts such strings; `inf`/`nan` are outside the model and map to the
`ValueError` outcome). -/
def pyFloatCore (cs : List Char) : Option PyQ :=
  let (neg, cs) := match cs with
    | '+' :: rest => (false, rest)
    | '-' :: rest => (true, rest)
    | _ => (false, cs)
  -- split off exponent
  let (mant, ex) := match cs.findIdx? (fun c => c == 'e' || c == 'E') with
    | some i => (cs.take i, some (cs.drop (i + 1)))
    | none => (cs, none)
  let expVal : Option Int :=
    match ex with
    | none => some 0
    | some ecs =>
      match ecs with
      | '+' :: rest => (parseDigitsUS rest).map Int.ofNat
      | '-' :: rest => (parseDigitsUS rest).map (fun n => -(n : Int))
      | _ => (parseDigitsUS ecs).map Int.ofNat
  match expVal with
  | none => none
  | some e =>
    let (ipart, fpart) := match mant.findIdx? (fun c => c == '.') with
      | some i => (mant.take i, some (mant.drop (i + 1)))
      | none => (mant, none)
    let ival : Option Nat := if ipart.isEmpty then some 0 else parseDigitsUS ipart
    let fval : Option (Nat × Nat) :=
      match fpart with
      | none => some (0, 0)
      | some [] => some (0, 0)
      | some fcs => parseDigitsLen fcs
    match ival, fval with
    | some iv, some (fv, flen) =>
      if ipart.isEmpty && (fpart.isNone || fpart = some []) then none
      else
        let base : PyQ := PyQ.norm ((iv : Int) * ((10 ^ flen : Nat) : Int) + (fv : Int)) (10 ^ flen)
        let scaled : PyQ :=
          if e ≥ 0 then PyQ.mul base (PyQ.ofInt ((10 : Int) ^ e.toNat))
          else PyQ.norm base.num (base.den * 10 ^ (-e).toNat)
        some (if neg then PyQ.neg scaled else scaled)
    | _, _ => none

def pyFloat (s : String) : Option PyQ :=
  pyFloatCore (listStrip s.data)

/-! ### Time conversions (embedding of `RMS_telemetry/utils.py`)

`datetime` values are naive UTC; timestamps are rationals (seconds since
the epoch, exact for the integral-second strings the program handles). -/

/-- A naive `datetime.datetime` value. -/
structure PyDateTime where
  year : Int
  month : Nat
  day : Nat
  hour : Nat
  minute : Nat
  second : Nat
  micro : Nat
  deriving DecidableEq

def isLeapYear (y : Int) : Bool :=
  (y % 4 == 0 && y % 100 != 0) || y % 400 == 0

def daysInMonth (y : Int) (m : Nat) : Nat :=
  match m with
  | 1 => 31 | 2 => if isLeapYear y then 29 else 28
  | 3 => 31 | 4 => 30 | 5 => 31 | 6 => 30 | 7 => 31
  | 8 => 31 | 9 => 30 | 10 => 31 | 11 => 30 | 12 => 31
  | _ => 0

/-- Days since 1970-01-01 of a civil date (Hinnant's algorithm; the
divisions are truncating, matching its C semantics on the shifted
operands). -/
def daysFromCivil (y : Int) (m d : Nat) : Int :=
  let y := y - (if m ≤ 2 then 1 else 0)
  let era := (if 0 ≤ y then y else y - 399) / 400
  let yoe := y - era * 400
  let doy : Int := (153 * ((m : Int) + (if 2 < m then -3 else 9)) + 2) / 5 + (d : Int) - 1
  let doe := yoe * 365 + yoe / 4 - yoe / 100 + doy
  era * 146097 + doe - 719468

/-- Civil date from days since the epoch (inverse of `daysFromCivil`). -/
def civilFromDays (z0 : Int) : Int × Nat × Nat :=
  let z := z0 + 719468
  let era := (if 0 ≤ z then z else z - 146096) / 146097
  let doe := z - era * 146097
  let yoe := (doe - doe / 1460 + doe / 36524 - doe / 146096) / 365
  let y := yoe + era * 400
  let doy := doe - (365 * yoe + yoe / 4 - yoe / 100)
  let mp := (5 * doy + 2) / 153
  let d := doy - (153 * mp + 2) / 5 + 1
  let m := mp + (if mp < 10 then 3 else -9)
  (y + (if m ≤ 2 then 1 else 0), m.toNat, d.toNat)

def parseNDigits : Nat → List Char → Option (Nat × List Char)
  | 0, cs => some (0, cs)
  | n + 1, c :: cs =>
    if isAsciiDigit c then
      (parseNDigits n cs).map (fun p => ((c.toNat - 48) * 10 ^ n + p.1, p.2))
    else none
  | _ + 1, [] => none

def expectChar (c : Char) : List Char → Option (List Char)
  | x :: cs => if x == c then some cs else none
  | [] => none

/-- The time part `HH:MM[:SS[.fff[fff]]]` of an ISO string, as
`datetime.fromisoformat` accepts it. -/
def parseIsoTime (cs : List Char) : Option (Nat × Nat × Nat × Nat) := do
  let (h, cs) ← parseNDigits 2 cs
  let cs ← expectChar ':' cs
  let (mi, cs) ← parseNDigits 2 cs
  match cs with
  | [] => if h ≤ 23 && mi ≤ 59 then some (h, mi, 0, 0) else none
  | _ => do
    let cs ← expectChar ':' cs
    let (s, cs) ← parseNDigits 2 cs
    let micro ← (match cs with
      | [] => some 0
      | '.' :: fs =>
        if fs.length == 3 then (parseNDigits 3 fs).map (fun p => p.1 * 1000)
        else if fs.length == 6 then (parseNDigits 6 fs).map (fun p => p.1)
        else none
      | _ => none)
    if h ≤ 23 && mi ≤ 59 && s ≤ 59 then some (h, mi, s, micro) else none

/-- `datetime.fromisoformat` as the Python 3.7-3.10 implementation used
by the program accepts it: a 10-character date, an arbitrary separator
character, then an optional time part.  Failure models the raised
`ValueError`. -/
def fromisoformat (s : String) : Except PyErr PyDateTime := do
  let cs := s.data
  let r : Option PyDateTime := do
    let (y, cs) ← parseNDigits 4 cs
    let cs ← expectChar '-' cs
    let (mo, cs) ← parseNDigits 2 cs
    let cs ← expectChar '-' cs
    let (d, cs) ← parseNDigits 2 cs
    if y < 1 || mo < 1 || mo > 12 || d < 1 || d > daysInMonth (y : Int) mo then none
    else
      match cs with
      | [] => some ⟨y, mo, d, 0, 0, 0, 0⟩
      | _ :: time =>
        (parseIsoTime time).map (fun (h, mi, sec, mic) => ⟨y, mo, d, h, mi, sec, mic⟩)
  match r with
  | some dt => pure dt
  | none => throw .valueError

/-- `iso_to_datetime` from `utils.py`: strip the `Z`s, then
`fromisoformat`. -/
def iso_to_datetime (iso : String) : Except PyErr PyDateTime :=
  fromisoformat (pyReplace iso "Z" "")

/-- `calendar.timegm(dt.timetuple())`: epoch seconds ignoring
microseconds. -/
def timegm (dt : PyDateTime) : Int :=
  daysFromCivil dt.year dt.month dt.day * 86400 +
    (dt.hour : Int) * 3600 + (dt.minute : Int) * 60 + (dt.second : Int)

/-- `iso_to_timestamp` from `utils.py`. -/
def iso_to_timestamp (iso : String) : Except PyErr PyQ := do
  let dt ← iso_to_datetime iso
  pure (PyQ.norm (timegm dt * 1000000 + (dt.micro : Int)) 1000000)

/-- `datetime.utcfromtimestamp` for a rational timestamp (exact for the
integral values the program produces; fractions round to microseconds). -/
def utcfromtimestamp (ts : PyQ) : PyDateTime :=
  let tm : Int := PyQ.floor (PyQ.add (PyQ.mul ts (PyQ.ofInt 1000000)) ⟨1, 2⟩)
  let secs : Int := Int.fdiv tm 1000000
  let micro : Nat := (tm - secs * 1000000).toNat
  let days : Int := Int.fdiv secs 86400
  let sod : Nat := (secs - days * 86400).toNat
  let (y, mo, d) := civilFromDays days
  ⟨y, mo, d, sod / 3600, sod % 3600 / 60, sod % 60, micro⟩

def pad2 (n : Nat) : String := if n < 10 then "0" ++ toString n else toString n

def pad4 (n : Nat) : String :=
  if n < 10 then "000" ++ toString n
  else if n < 100 then "00" ++ toString n
  else if n < 1000 then "0" ++ toString n
  else toString n

/-- `datetime_to_iso` from `utils.py`: `dt.isoformat()` with the
fractional part cut off, plus a `Z`. -/
def datetime_to_iso (dt : PyDateTime) : String :=
  pad4 dt.year.toNat ++ "-" ++ pad2 dt.month ++ "-" ++ pad2 dt.day ++ "T" ++
    pad2 dt.hour ++ ":" ++ pad2 dt.minute ++ ":" ++ pad2 dt.second ++ "Z"

/-- `timestamp_to_iso` from `utils.py`. -/
def timestamp_to_iso (ts : PyQ) : String :=
  datetime_to_iso (utcfromtimestamp ts)

def weekdayNames : List String := ["Mon", "Tue", "Wed", "Thu", "Fri", "Sat", "Sun"]

def monthNames : List String :=
  ["Jan", "Feb", "Mar", "Apr", "May", "Jun", "Jul", "Aug", "Sep", "Oct", "Nov", "Dec"]

/-- `timestamp_to_rfc2822` from `utils.py`:
`strftime('%a, %d %b %Y %X %z').strip()` of the naive UTC datetime (the
`%z` of a naive datetime is empty, hence the strip). -/
def timestamp_to_rfc2822 (ts : PyQ) : String :=
  let dt := utcfromtimestamp ts
  let wd := ((daysFromCivil dt.year dt.month dt.day + 3) % 7 + 7) % 7
  (weekdayNames.getD wd.toNat "") ++ ", " ++ pad2 dt.day ++ " " ++
    (monthNames.getD (dt.month - 1) "") ++ " " ++ pad4 dt.year.toNat ++ " " ++
    pad2 dt.hour ++ ":" ++ pad2 dt.minute ++ ":" ++ pad2 dt.second

/-- `iso_age(iso, ref)` from `utils.py` with an explicit reference time
(the program always passes one): seconds by which `ref` is later than
`iso`. -/
def iso_age (iso ref : String) : Except PyErr PyQ := do
  let rdt ← iso_to_datetime ref
  let idt ← iso_to_datetime iso
  pure (PyQ.sub (PyQ.norm (timegm rdt * 1000000 + (rdt.micro : Int)) 1000000)
                (PyQ.norm (timegm idt * 1000000 + (idt.micro : Int)) 1000000))

/-- `_DUMMY_TIME = timestamp_to_iso(0)` from `log.py` / `server.py`. -/
def DUMMY_TIME : String := timestamp_to_iso (PyQ.ofInt 0)

/-! ### The two line grammars of `log.py`

`_logRE = r'(?P<date>\d{4}/\d{2}/\d{2}) (?P<time>\d{2}:\d{2}:\d{2})-`
`(?P<level>[A-Z]*?)-(?P<module>.*?)-line:(?P<line>\d+) - (?P<message>.*)'`
used with `re.search`, and
`_obsRE = r'^(?P<parameter>[a-z_]*)\s*: ?(?P<value>.*)'`.

Both patterns are deterministic once the lazy/greedy semantics are
unfolded: the lazy `[A-Z]*?` before a literal `-` can only match the
maximal run of capitals (a `-` is not a capital), and the lazy module is
resolved by taking the leftmost position where `-line:` followed by
digits and `\x20-\x20` succeeds; `re.search` takes the leftmost starting
position where the whole pattern matches. -/

structure LogMatch where
  date : String
  time : String
  level : String
  module : String
  lnum : Nat
  message : String
  deriving DecidableEq

def digitsToNat (ds : List Char) : Nat :=
  ds.foldl (fun acc c => acc * 10 + (c.toNat - 48)) 0

/-- Resolve the lazy `(?P<module>.*?)-line:(?P<line>\d+) - `: scan for
the leftmost position where the literal, a non-empty digit run and
`\x20-\x20` all match; the rest of the line is the message. -/
def moduleScan (acc : List Char) : List Char → Option (String × Nat × String)
  | [] => none
  | c :: rest =>
    let cur := c :: rest
    if "-line:".data.isPrefixOf cur then
      let after := cur.drop 6
      let ds := after.takeWhile isAsciiDigit
      let tail2 := after.drop ds.length
      if !ds.isEmpty && " - ".data.isPrefixOf tail2 then
        some (⟨acc.reverse⟩, digitsToNat ds, ⟨(tail2.drop 3).takeWhile (fun x => x != '\n')⟩)
      else if c == '\n' then none
      else moduleScan (c :: acc) rest
    else if c == '\n' then none
    else moduleScan (c :: acc) rest

/-- Try to match `_logRE` with the date anchored at the head of `cs`
(the suffix of the line being scanned). -/
def logMatchAt (cs : List Char) : Option LogMatch := do
  let (y, cs) ← parseNDigits 4 cs
  let cs ← expectChar '/' cs
  let (mo, cs) ← parseNDigits 2 cs
  let cs ← expectChar '/' cs
  let (d, cs) ← parseNDigits 2 cs
  let cs ← expectChar ' ' cs
  let (h, cs) ← parseNDigits 2 cs
  let cs ← expectChar ':' cs
  let (mi, cs) ← parseNDigits 2 cs
  let cs ← expectChar ':' cs
  let (s, cs) ← parseNDigits 2 cs
  let cs ← expectChar '-' cs
  let lvl := cs.takeWhile isAsciiUpper
  let cs ← expectChar '-' (cs.drop lvl.length)
  let (m, lnum, msg) ← moduleScan [] cs
  pure { date := pad4 y ++ "/" ++ pad2 mo ++ "/" ++ pad2 d
       , time := pad2 h ++ ":" ++ pad2 mi ++ ":" ++ pad2 s
       , level := ⟨lvl⟩, module := m, lnum := lnum, message := msg }

/-- `_logRE.search(line)`: leftmost match. -/
def logSearchAux : List Char → Option LogMatch
  | [] => none
  | c :: rest =>
    match logMatchAt (c :: rest) with
    | some m => some m
    | none => logSearchAux rest

def pyLogSearch (line : String) : Option LogMatch :=
  logSearchAux line.data

/-- `_obsRE.search(line)`: anchored at the start; parameter is a
(possibly empty) run of `[a-z_]`, then whitespace, a colon, at most one
space, and the rest of the line as the value. -/
def pyObsMatch (line : String) : Option (String × String) :=
  let cs := line.data
  let param := cs.takeWhile isAsciiLowerUnd
  let rest := (cs.drop param.length).dropWhile isPySpace
  match rest with
  | ':' :: rest2 =>
    let value := match rest2 with
      | ' ' :: r => r
      | _ => rest2
    some (⟨param⟩, ⟨value.takeWhile (fun x => x != '\n')⟩)
  | _ => none

/-! ### `parse_log_line` (embedding of `RMS_telemetry/log.py`)

The module-level mutable state of `log.py` (`_CAPTURE_STARTED`,
`_PENDING_CAMREA`, `_LOOKBACK_BUFFER`, `_EXPECTED_FITS`) is made
explicit as `PState`.  A raised exception becomes `Except.error`; in
particular the `UploadManager`/`Starting upload of` branch calls
`os.path.basename` although `log.py` never imports `os`, so executing it
raises `NameError`, modelled by `PyErr.nameError`. -/

structure PState where
  captureStarted : Bool
  pendingCamera : Option (Bool × String)
  lookback : List String
  expectedFits : Option PyVal

def initPState : PState :=
  { captureStarted := false, pendingCamera := none, lookback := [], expectedFits := none }

/-- `deque(maxlen=5).append`. -/
def pushLookback (buf : List String) (dt : String) : List String :=
  let l := buf ++ [dt]
  l.drop (l.length - 5)

/-- The document built when `parse_log_line` is called with `data=None`
(or a falsy empty dict): four fresh empty sections.  Note the section
loop that would add `n_star` / `attempted` / `completed` defaults only
runs for keys *missing* from the dict, so here the sections stay
empty. -/
def defaultSections : PyDict :=
  [("capture", .pdict []), ("detections", .pdict []),
   ("camera", .pdict []), ("upload", .pdict [])]

/-- The `for key in ('capture', 'detections', 'camera', 'upload')`
section-initialisation loop. -/
def sectionInit (d : PyDict) : PyDict :=
  ["capture", "detections", "camera", "upload"].foldl
    (fun d key =>
      if dictHas d key then d
      else
        if key == "detections" then d ++ [(key, .pdict [("n_star", .pint 0)])]
        else if key == "upload" then
          d ++ [(key, .pdict [("attempted", .plist []), ("completed", .plist [])])]
        else d ++ [(key, .pdict [])])
    d

/-- Unpack a Python `a, b = xs` of expected arity, raising `ValueError`
on a mismatch. -/
def unpack2 (xs : List String) : Except PyErr (String × String) :=
  match xs with
  | [a, b] => pure (a, b)
  | _ => throw .valueError

def unpack3 (xs : List String) : Except PyErr (String × String × String) :=
  match xs with
  | [a, b, c] => pure (a, b, c)
  | _ => throw .valueError

def toFloat (s : String) : Except PyErr PyQ :=
  match pyFloat s with
  | some q => pure q
  | none => throw .valueError

def toInt (s : String) : Except PyErr Int :=
  match pyInt s with
  | some n => pure n
  | none => throw .valueError

/-- The `StartCapture` branch. -/
def startCaptureBranch (dt message : String) (d : PyDict) (ps : PState) :
    Except PyErr (PyDict × PState) := do
  if pyStarts message "Starting capture" then do
    let ps := { ps with captureStarted := true }
    let toks := pySplitWs message
    let durTok ← (match toks with
      | [_, _, _, dur, _] => pure dur
      | _ => throw .valueError)
    let duration ← toFloat durTok
    let d ← dictSet2 d "capture" "running" (.pbool true)
    let d ← dictSet2 d "capture" "duration_hr" (.pfloat duration)
    let d ← dictSet2 d "capture" "started" (.pstr dt)
    let d ← dictSet2 d "capture" "latest_block" (.pstr DUMMY_TIME)
    let d ← dictSet2 d "capture" "block_max_age_s" (.pfloat 0)
    let d ← dictSet2 d "capture" "n_frames_dropped" (.pint 0)
    let d ← dictSet2 d "capture" "latest_all_white" (.pstr DUMMY_TIME)
    let d ← dictSet2 d "capture" "updated" (.pstr dt)
    let d ← dictSet2 d "detections" "n_meteor" (.pint 0)
    let d ← dictSet2 d "detections" "last_meteor" (.pstr DUMMY_TIME)
    let d ← dictSet2 d "detections" "n_meteor_final" (.pint 0)
    let d ← dictSet2 d "detections" "updated" (.pstr dt)
    let d ← (match dictGet? d "capture" with
      | some (.pdict cd) =>
        if dictHas cd "next_start" then
          pure (dictSet d "capture" (.pdict (dictDel cd "next_start")))
        else pure d
      | _ => pure d)
    pure (d, ps)
  else if pyStarts message "Ending capture..." then do
    let d ← dictSet2 d "capture" "running" (.pbool false)
    let d ← dictSet2 d "capture" "updated" (.pstr dt)
    pure (d, ps)
  else if pyStarts message "Next start time:" then
    if ps.captureStarted then
      pure (dictSet d "end_of_day" (.pbool true), { ps with captureStarted := false })
    else do
      let (_, nsdt0) ← unpack2 (pySplit message ":" (some 1))
      let nsdt1 := pyStrip nsdt0
      let (nsdt2, _) ← (match pyRSplitChar1 nsdt1 '.' with
        | [a, b] => pure (a, b)
        | _ => throw .valueError)
      let nsdt3 := pyReplace (pyReplace nsdt2 " " "T" ++ "Z") "/" "-"
      let d ← dictSet2 d "capture" "next_start" (.pstr nsdt3)
      let d ← dictSet2 d "capture" "updated" (.pstr dt)
      pure (d, ps)
  else
    pure (d, ps)

/-- The `EventMonitor` branch. -/
def eventMonitorBranch (date dt message : String) (d : PyDict) (ps : PState) :
    Except PyErr (PyDict × PState) := do
  if pyStarts message "Next Capture start" then do
    let (_, nst0) ← unpack2 (pySplit message ":" (some 1))
    let nst1 := pyStrip nst0
    let (nst2, _) ← unpack2 (pySplit nst1 " UTC" (some 1))
    let nsdt := pyReplace (date ++ "T" ++ nst2 ++ "Z") "/" "-"
    let age ← iso_age nsdt dt
    let nsdt ← (if 0 < age then do
        let ts ← iso_to_timestamp nsdt
        pure (timestamp_to_iso (PyQ.add ts (PyQ.ofInt 86400)))
      else pure nsdt)
    let d ← dictSet2 d "capture" "next_start" (.pstr nsdt)
    let d ← dictSet2 d "capture" "updated" (.pstr dt)
    pure (d, ps)
  else
    pure (d, ps)

/-- The `DetectStarsAndMeteors` branch. -/
def detectBranch (dt message : String) (d : PyDict) (ps : PState) :
    Except PyErr (PyDict × PState) := do
  if pyStarts message "Detected stars:" then do
    let (_, nstarTok) ← unpack2 (pySplit message ":" (some 1))
    let nstar ← toInt nstarTok
    let d ← dictSet2 d "detections" "n_star" (.pint nstar)
    let d ← dictSet2 d "detections" "updated" (.pstr dt)
    pure (d, ps)
  else if pyContains message "detected meteors:" then do
    let (_, nmTok) ← unpack2 (pyRSplitChar1 message ':')
    let nmeteor ← toInt nmTok
    -- try: data['detections']['n_meteor'] += nmeteor except KeyError: = nmeteor
    let detections ← dictGet d "detections"
    let newVal ← (match detections with
      | .pdict dd =>
        match dictGet? dd "n_meteor" with
        | some (.pint k) => pure (PyVal.pint (k + nmeteor))
        | some (.pfloat q) => pure (PyVal.pfloat (PyQ.add q (PyQ.ofInt nmeteor)))
        | some (.pbool b) => pure (PyVal.pint ((if b then 1 else 0) + nmeteor))
        | some _ => throw .typeError
        | none => pure (PyVal.pint nmeteor)
      | _ => throw .typeError)
    let d ← dictSet2 d "detections" "n_meteor" newVal
    let d ← (if 0 < nmeteor then dictSet2 d "detections" "last_meteor" (.pstr dt)
             else pure d)
    let d ← dictSet2 d "detections" "updated" (.pstr dt)
    pure (d, ps)
  else
    pure (d, ps)

/-- The `MLFilter` branch. -/
def mlFilterBranch (dt message : String) (d : PyDict) (ps : PState) :
    Except PyErr (PyDict × PState) := do
  if pyStarts message "FTPdetectinfo filtered," then do
    let (part0, _) ← unpack2 (pySplit message "/" (some 1))
    let (_, nmfTok) ← unpack2 (pyRSplitWs1 part0)
    let nmf ← toInt nmfTok
    let d ← dictSet2 d "detections" "n_meteor_final" (.pint nmf)
    let d ← dictSet2 d "detections" "updated" (.pstr dt)
    pure (d, ps)
  else
    pure (d, ps)

/-- The `UploadManager` branch.  The start-of-upload case raises
`NameError` because `log.py` calls `os.path.basename` without importing
`os`. -/
def uploadBranch (dt message : String) (d : PyDict) (ps : PState) :
    Except PyErr (PyDict × PState) := do
  if pyStarts message "Starting upload of" then
    throw .nameError
  else if pyStarts message "Upload successful!" then do
    let upload ← dictGet d "upload"
    match upload with
    | .pdict ud => do
      let attempted ← dictGet ud "attempted"
      match attempted with
      | .plist xs =>
        match xs.getLast? with
        | none => throw .indexError
        | some fname => do
          let ud := dictSet ud "attempted" (.plist xs.dropLast)
          let completed ← dictGet ud "completed"
          match completed with
          | .plist cs => do
            let ud := dictSet ud "completed" (.plist (cs ++ [fname]))
            let ud := dictSet ud "updated" (.pstr dt)
            pure (dictSet d "upload" (.pdict ud), ps)
          | _ => throw .attributeError
      | _ => throw .attributeError
    | _ => throw .typeError
  else
    pure (d, ps)

/-- The ERROR/CRITICAL collection at the end of the event-line path. -/
def levelCollect (line llevel : String) (d : PyDict) : Except PyErr PyDict := do
  if llevel == "ERROR" || llevel == "CRITICAL" then
    let key := if llevel == "ERROR" then "error" else "critical"
    let d := if dictHas d key then d else dictSet d key (.plist [])
    let sline := pyStrip line
    match dictGet? d key with
    | some (.plist xs) =>
      if xs.any (fun v => PyVal.beq v (.pstr sline)) then pure d
      else pure (dictSet d key (.plist (xs ++ [.pstr sline])))
    | some (.pstr s) =>
      if pyContains s sline then pure d else throw .attributeError
    | some (.pdict dd) =>
      if dictHas dd sline then pure d else throw .attributeError
    | some _ => throw .typeError
    | none => pure d
  else
    pure d

/-- Coerce an observation-summary value string the way the source does:
`True`/`False`, else `int`, else `float`, else keep the string. -/
def coerceValue (v : String) : PyVal :=
  if v == "True" then .pbool true
  else if v == "False" then .pbool false
  else
    match pyInt v with
    | some n => .pint n
    | none =>
      match pyFloat v with
      | some q => .pfloat q
      | none => .pstr v

/-- Python `a / b` on the document values involved in `fits_fill`. -/
def pyDiv (a b : PyVal) : Except PyErr PyQ := do
  let toQ : PyVal → Except PyErr PyQ := fun v =>
    match v with
    | .pint n => pure (PyQ.ofInt n)
    | .pfloat q => pure q
    | .pbool b => pure (PyQ.ofInt (if b then 1 else 0))
    | _ => throw .typeError
  let x ← toQ a
  let y ← toQ b
  if y = PyQ.ofInt 0 then throw .zeroDivisionError else pure (PyQ.div x y)

/-- The observation-summary path of `parse_log_line`. -/
def obsBranch (param value0 : String) (d : PyDict) (ps : PState) :
    Except PyErr (PyDict × PState) := do
  let value := coerceValue (pyRStrip value0)
  let (d, ps) ←
    (if pyStarts param "camera_" then do
      let (_, param2) ← unpack2 (pySplit param "_" (some 1))
      let d ← dictSet2 d "camera" param2 value
      pure (d, ps)
    else if pyStarts param "jitter_quality" then do
      let d ← dictSet2 d "camera" "jitter_quality" value
      pure (d, ps)
    else if pyStarts param "photometry_good" then do
      let (d, ps) ← (match ps.pendingCamera with
        | some (good, _) => do
          let d ← dictSet2 d "camera" "astrometry_good" (.pbool good)
          pure (d, { ps with pendingCamera := none })
        | none => pure (d, ps))
      let d ← dictSet2 d "camera" "photometry_good" value
      pure (d, ps)
    else if pyStarts param "total_expected_fits" then
      pure (d, { ps with expectedFits := some value })
    else if pyStarts param "total_fits" then
      match ps.expectedFits with
      | some expected => do
        let q ← pyDiv value expected
        let d ← dictSet2 d "camera" "fits_fill" (.pfloat (PyQ.mul q (PyQ.ofInt 100)))
        pure (d, { ps with expectedFits := none })
      | none => pure (d, ps)
    else
      pure (d, ps))
  match ps.lookback.getLast? with
  | some dt => do
    let d ← dictSet2 d "camera" "updated" (.pstr dt)
    pure (d, ps)
  | none => pure (d, ps)

/-- `parse_log_line(line, data)` from `RMS_telemetry/log.py`, with the
module state made explicit.  `Except.error` models a raised
exception. -/
def parse_log_line (line : String) (data : Option PyDict) (ps : PState) :
    Except PyErr (PyDict × PState) := do
  let d0 := match data with
    | none => defaultSections
    | some d => if d.isEmpty then defaultSections else d
  let d := sectionInit d0
  match pyLogSearch line with
  | some m => do
    let dt := pyReplace (m.date ++ "T" ++ m.time ++ "Z") "/" "-"
    let (d, ps) ←
      (if m.module == "StartCapture" then startCaptureBranch dt m.message d ps
      else if m.module == "EventMonitor" then eventMonitorBranch m.date dt m.message d ps
      else if m.module == "BufferedCapture" then
        (if pyStarts m.message "Block's max frame age:" then do
          let (_, bageTok, ndropTok) ← unpack3 (pySplit m.message ":" (some 2))
          let (bageTok2, _) ← unpack2 (pySplitWs1 bageTok)
          let bage ← toFloat bageTok2
          let ndropped ← toInt ndropTok
          let d ← dictSet2 d "capture" "latest_block" (.pstr dt)
          let d ← dictSet2 d "capture" "block_max_age_s" (.pfloat bage)
          let d ← dictSet2 d "capture" "n_frames_dropped" (.pint ndropped)
          let d ← dictSet2 d "capture" "updated" (.pstr dt)
          pure (d, ps)
        else pure (d, ps))
      else if m.module == "VideoExtraction" then
        (if pyContains m.message "frames are all white" then do
          let d ← dictSet2 d "capture" "latest_all_white" (.pstr dt)
          let d ← dictSet2 d "capture" "updated" (.pstr dt)
          pure (d, ps)
        else pure (d, ps))
      else if m.module == "DetectStarsAndMeteors" then detectBranch dt m.message d ps
      else if m.module == "MLFilter" then mlFilterBranch dt m.message d ps
      else if m.module == "Reprocess" then
        (if pyStarts m.message "Astrometric calibration" then
          let pc := some (pyContains m.message "SUCCESSFUL", dt)
          pure (d, { ps with pendingCamera := pc })
        else pure (d, ps))
      else if m.module == "UploadManager" then uploadBranch dt m.message d ps
      else pure (d, ps))
    let d ← levelCollect line m.level d
    pure (d, { ps with lookback := pushLookback ps.lookback dt })
  | none =>
    match pyObsMatch line with
    | some (param, value) => obsBranch param value d ps
    | none => pure (d, ps)

/-! ### `TelemetryServer` (embedding of `RMS_telemetry/server.py`)

The HTTP machinery is an external collaborator; the embedded part is the
data-store behaviour: `set_data`, `get_data`, `get_previous_dates` and
`get_previous_data`, together with the `deque(maxlen=max_history)`
history ring.  A raised exception is `Except.error`. -/

structure ServerState where
  max_history : Nat
  data : PyDict
  last_modified : String
  previous_data : List PyDict   -- oldest first, `deque(maxlen=max_history)`
  previous_last_modified : String

/-- The store as `TelemetryServer.__init__` leaves it (with the given
`max_history`, default 7 in the source). -/
def initServerState (mh : Nat) : ServerState :=
  { max_history := mh, data := [], last_modified := DUMMY_TIME
  , previous_data := [], previous_last_modified := DUMMY_TIME }

/-- `deque(maxlen=m).append(x)`: append, evicting the oldest entry when
the ring is at capacity. -/
def dequeAppend (m : Nat) (q : List PyDict) (x : PyDict) : List PyDict :=
  let l := q ++ [x]
  l.drop (l.length - m)

/-- Value of `d[key]['updated']` as the archive-time computation of
`set_data` performs it (no `'updated' in` guard: a section without it
raises `KeyError`, a non-dict section raises `TypeError`). -/
def sectionUpdated (v : PyVal) : Except PyErr PyVal :=
  match v with
  | .pdict inner => dictGet inner "updated"
  | _ => throw .typeError

/-- Code-point lexicographic string comparison (Python `<` on `str`). -/
def listLtChars : List Char → List Char → Bool
  | [], [] => false
  | [], _ :: _ => true
  | _ :: _, [] => false
  | a :: as, b :: bs =>
    if a < b then true else if b < a then false else listLtChars as bs

def pyStrLt (a b : String) : Bool := listLtChars a.data b.data

/-- Lexicographic `max` over the collected `updated` strings; `max` of
mixed types raises `TypeError` in Python. -/
def pyMaxStr : List PyVal → Except PyErr String
  | [] => throw .valueError
  | v :: rest => do
    let s0 ← (match v with | .pstr s => pure s | _ => throw .typeError)
    rest.foldlM (fun acc w =>
      match w with
      | .pstr s => pure (if pyStrLt acc s then s else acc)
      | _ => throw .typeError) s0

def updatedKeys : List String := ["capture", "detections", "camera", "disk"]

/-- `max([self._data[key]['updated'] for key in (...) if key in self._data])`
with the `ValueError` of an empty `max` caught and replaced by the dummy
time (any `KeyError`/`TypeError` propagates, as in the source). -/
def archiveUpdated (d : PyDict) : Except PyErr String := do
  let items ← updatedKeys.foldlM (fun acc key =>
    match dictGet? d key with
    | some v => do
      let u ← sectionUpdated v
      pure (acc ++ [u])
    | none => pure acc) ([] : List PyVal)
  match items with
  | [] => pure DUMMY_TIME
  | _ => pyMaxStr items

/-- Membership and lookup for the guarded variant
`if key in data_obj and 'updated' in data_obj[key]` followed by
`data_obj[key]['updated']`; `'updated' in v` raises `TypeError` for
non-container `v` and the subscript raises for non-dicts. -/
def sectionUpdatedGuarded (v : PyVal) : Except PyErr (Option PyVal) :=
  match v with
  | .pdict inner =>
    match dictGet? inner "updated" with
    | some u => pure (some u)
    | none => pure none
  | .plist xs =>
    if xs.any (fun x => PyVal.beq x (.pstr "updated")) then throw .typeError
    else pure none
  | .pstr s =>
    if pyContains s "updated" then throw .typeError else pure none
  | _ => throw .typeError

/-- The last-modified computation `set_data` performs for the incoming
document (this one checks `'updated' in data_obj[key]`). -/
def currentUpdated (d : PyDict) : Except PyErr String := do
  let items ← updatedKeys.foldlM (fun acc key =>
    match dictGet? d key with
    | some v => do
      match (← sectionUpdatedGuarded v) with
      | some u => pure (acc ++ [u])
      | none => pure acc
    | none => pure acc) ([] : List PyVal)
  match items with
  | [] => pure DUMMY_TIME
  | _ => pyMaxStr items

/-- The conditional counter reset in `set_data`, executed when the
incoming rollover document has a falsy `capture.running`. -/
def rolloverResets (d : PyDict) : Except PyErr PyDict := do
  let d ← dictSet2 d "capture" "duration_hr" (.pfloat 0)
  let d ← dictSet2 d "capture" "started" (.pstr DUMMY_TIME)
  let d ← dictSet2 d "capture" "latest_block" (.pstr DUMMY_TIME)
  let d ← dictSet2 d "capture" "block_max_age_s" (.pfloat 0)
  let d ← dictSet2 d "capture" "n_frames_dropped" (.pint 0)
  let d ← dictSet2 d "capture" "latest_all_white" (.pstr DUMMY_TIME)
  let d ← dictSet2 d "detections" "n_meteor" (.pint 0)
  let d ← dictSet2 d "detections" "last_meteor" (.pstr DUMMY_TIME)
  let d ← dictSet2 d "detections" "n_meteor_final" (.pint 0)
  pure d

/-- `TelemetryServer.set_data`.  On a truthy `end_of_day` marker it
archives a deep copy of the previous current document into the ring,
recomputes `previous_last_modified`, deletes the marker, and — keyed on
the *incoming* document's `capture.running` — applies the counter
resets; `error`/`critical` are stripped; finally the incoming document
becomes current and `last_modified` is recomputed. -/
def set_data (data_obj : PyDict) (st : ServerState) : Except PyErr ServerState := do
  let (dObj, ring, prevLM) ←
    (if dictHas data_obj "end_of_day" then
      if ((dictGet? data_obj "end_of_day").getD .pnone).truthy then do
        let ring := dequeAppend st.max_history st.previous_data st.data
        let updStr ← archiveUpdated st.data
        let ts ← iso_to_timestamp updStr
        let prevLM := timestamp_to_rfc2822 ts
        let d1 := dictDel data_obj "end_of_day"
        let cap ← dictGet d1 "capture"
        let running ← (match cap with
          | .pdict cd => dictGet cd "running"
          | _ => throw .typeError)
        let d2 ← (if running.truthy then pure d1 else rolloverResets d1)
        let d3 := dictDel (dictDel d2 "error") "critical"
        pure (d3, ring, prevLM)
      else pure (data_obj, st.previous_data, st.previous_last_modified)
    else pure (data_obj, st.previous_data, st.previous_last_modified))
  let updStr2 ← currentUpdated dObj
  let ts2 ← iso_to_timestamp updStr2
  pure { st with data := dObj, previous_data := ring,
                 previous_last_modified := prevLM,
                 last_modified := timestamp_to_rfc2822 ts2 }

/-- `TelemetryServer.get_data`: returns a deep copy of the current
document (a deep copy is value-identical, so at value level this is the
current document; the aliasing contrast with `get_previous_data` is
captured by the reference-level model below). -/
def get_data (st : ServerState) : PyDict := st.data

/-- One step of the `get_previous_dates` loop: `none` when the entry is
skipped, `some` when a date is produced, an error when the Python body
would raise. -/
def previousDateOf (entry : PyDict) : Except PyErr (Option String) := do
  match dictGet? entry "capture" with
  | none => pure none
  | some cap =>
    let started? ← (match cap with
      | .pdict cd => pure (dictGet? cd "started")
      | .plist xs =>
        if xs.any (fun x => PyVal.beq x (.pstr "started")) then throw .typeError
        else pure none
      | .pstr s => if pyContains s "started" then throw .typeError else pure none
      | _ => throw .typeError)
    match started? with
    | none => pure none
    | some v =>
      match v with
      | .pstr s => do
        let (date, _) ← unpack2 (pySplit s "T" (some 1))
        pure (some (pyReplace date "-" ""))
      | _ => throw .attributeError

/-- The body of the `get_previous_dates` loop. -/
def prevDatesStep (acc : List String) (entry : PyDict) :
    Except PyErr (List String) := do
  match (← previousDateOf entry) with
  | some date => pure (acc ++ [date])
  | none => pure acc

/-- `TelemetryServer.get_previous_dates`. -/
def get_previous_dates (st : ServerState) : Except PyErr (List String) :=
  st.previous_data.foldlM prevDatesStep []

/-- `entry['capture']['started'].replace('-', '').startswith(date)` as
the dated `get_previous_data` lookup evaluates it (no guards: missing
keys raise `KeyError`, non-dict/non-string values raise). -/
def entryMatchesDate (entry : PyDict) (date : String) : Except PyErr Bool := do
  let cap ← dictGet entry "capture"
  let started ← (match cap with
    | .pdict cd => dictGet cd "started"
    | _ => throw .typeError)
  match started with
  | .pstr s => pure (pyStarts (pyReplace s "-" "") date)
  | _ => throw .attributeError

def findPreviousByDate (entries : List PyDict) (date : String) :
    Except PyErr (Option PyDict) :=
  match entries with
  | [] => pure none
  | e :: rest => do
    if (← entryMatchesDate e date) then pure (some e)
    else findPreviousByDate rest date

/-- `TelemetryServer.get_previous_data`. -/
def get_previous_data (date : Option String) (st : ServerState) :
    Except PyErr (Option PyDict) :=
  if st.previous_data.isEmpty then pure none
  else
    match date with
    | none => pure st.previous_data.getLast?
    | some ds => findPreviousByDate st.previous_data ds

/-! ### Reference-level store model (for the copy/alias contrast)

`get_data` returns `copy.deepcopy(self._data)` — a freshly allocated
object — while `get_previous_data` returns the very object held in the
history deque.  To state this, the object graph is modelled explicitly:
a heap of documents addressed by allocation index, the current document
and the ring holding addresses. -/

structure RefStore where
  heap : List PyDict
  current : Nat
  ring : List Nat

def heapRead (h : List PyDict) (a : Nat) : PyDict := h.getD a []

/-- `get_data` at reference level: `copy.deepcopy` allocates a fresh
object whose content equals the current document, and that fresh address
is what the caller receives. -/
def get_data_ref (st : RefStore) : RefStore × Nat :=
  ({ st with heap := st.heap ++ [heapRead st.heap st.current] }, st.heap.length)

/-- Date-less `get_previous_data` at reference level: the address stored
in the deque is returned as-is, with no copy and no allocation. -/
def get_previous_data_ref (st : RefStore) : Option Nat :=
  if st.ring.isEmpty then none else st.ring.getLast?

def findPreviousByDateRef (h : List PyDict) (as : List Nat) (date : String) :
    Except PyErr (Option Nat) :=
  match as with
  | [] => pure none
  | a :: rest => do
    if (← entryMatchesDate (heapRead h a) date) then pure (some a)
    else findPreviousByDateRef h rest date

/-- Dated `get_previous_data` at reference level. -/
def get_previous_data_ref_date (date : String) (st : RefStore) :
    Except PyErr (Option Nat) :=
  if st.ring.isEmpty then pure none
  else findPreviousByDateRef st.heap st.ring date

/-! ### The polling loop's log reader (embedding of `RMS_telemetry.py`)

Each cycle of the `__main__` polling loop runs
`tail -n100 <newest log>` and feeds `latest.split('\n')` — every
element, not just new ones — to `parse_log_line`.  No byte offset is
kept anywhere in the loop. -/

/-- Python `s.split('\n')` on a character list. -/
def splitNl : List Char → List (List Char)
  | [] => [[]]
  | c :: rest =>
    if c = '\n' then [] :: splitNl rest
    else
      match splitNl rest with
      | [] => [[c]]
      | h :: t => (c :: h) :: t

/-- The lines one polling cycle feeds to the parser, as a function of
the current content of the newest log file: the output of
`tail -n100` re-split on newlines (`tail` keeps the trailing newline
when the file ends with one, so the split then produces a final empty
string, exactly as in the source loop). -/
def polled_lines (content : List Char) : List (List Char) :=
  let parts := splitNl content
  let endNl := parts.getLast? = some []
  let real := if endNl then parts.dropLast else parts
  let keep := real.drop (real.length - 100)
  keep ++ (if endNl then [[]] else [])

/-- Newline-terminated file content built from a list of lines. -/
def joinNl (ls : List (List Char)) : List Char :=
  ls.foldr (fun l acc => l ++ '\n' :: acc) []

/-! ### `timed_lru_cache` (embedding of `RMS_telemetry/utils.py`)

The decorator wraps `functools.lru_cache(maxsize)` and keeps **one**
`func.expiration` deadline for the whole function; the wrapper clears
the entire cache and resets that single deadline on the first call at or
after it.  `calls` counts invocations of the underlying function (the
observable recomputations). -/

structure TLCState (α β : Type) where
  entries : List (α × β)   -- most recently used first
  expiration : PyQ
  calls : Nat
  deriving DecidableEq

/-- State of the decorated function right after decoration at time `t0`:
empty cache, `expiration = time.time() + lifetime`. -/
def tlcInit (α β : Type) (lifetime t0 : PyQ) : TLCState α β :=
  { entries := [], expiration := t0 + lifetime, calls := 0 }

/-- `functools.lru_cache(maxsize)` call semantics: a hit moves the key
to the front; a miss computes, inserts at the front and trims to
`maxsize`. -/
def lru_call {α β : Type} [DecidableEq α] (f : α → β) (maxsize : Nat) (k : α)
    (st : TLCState α β) : β × TLCState α β :=
  match st.entries.find? (fun p => decide (p.1 = k)) with
  | some (_, v) =>
    (v, { st with entries := (k, v) :: st.entries.filter (fun p => !decide (p.1 = k)) })
  | none =>
    let v := f k
    (v, { st with entries := ((k, v) :: st.entries).take maxsize,
                  calls := st.calls + 1 })

/-- One call through the `timed_lru_cache` wrapper at time `t`: if `t`
has reached the function-wide expiration, clear the whole cache and
reset the deadline, then delegate to the LRU cache. -/
def timed_lru_call {α β : Type} [DecidableEq α] (f : α → β) (maxsize : Nat)
    (lifetime : PyQ) (t : PyQ) (k : α) (st : TLCState α β) : β × TLCState α β :=
  let st1 := if st.expiration ≤ t then
      { st with entries := [], expiration := t + lifetime }
    else st
  lru_call f maxsize k st1

/-- A sequence of wrapper calls, as `(time, key)` pairs. -/
def timed_lru_run {α β : Type} [DecidableEq α] (f : α → β) (maxsize : Nat)
    (lifetime : PyQ) (calls : List (PyQ × α)) (st : TLCState α β) : TLCState α β :=
  calls.foldl (fun s c => (timed_lru_call f maxsize lifetime c.1 c.2 s).2) st

/-! ### Derived drivers and observation helpers used by the claims -/

/-- Feeding a sequence of lines through `parse_log_line`, threading the
document and parser state the way the polling driver does. -/
def parseMany (lines : List String) (data : Option PyDict) (ps : PState) :
    Except PyErr (Option PyDict × PState) :=
  match lines with
  | [] => pure (data, ps)
  | l :: rest => do
    let (d, ps2) ← parse_log_line l data ps
    parseMany rest (some d) ps2

def docOf (data : Option PyDict) : PyDict := data.getD []

/-- The integer reading of `detections.n_meteor`, zero when absent. -/
def nMeteorInt (d : PyDict) : Int :=
  match dictGet2? d "detections" "n_meteor" with
  | some (.pint n) => n
  | _ => 0

/-- Recognise an event line of the class claim C4 ranges over — a
`DetectStarsAndMeteors` line whose message carries
`detected meteors: <n>` (and therefore reaches the meteor branch) — and
extract `n`. -/
def meteorLineValue (line : String) : Option Int :=
  match pyLogSearch line with
  | some m =>
    if m.module == "DetectStarsAndMeteors" &&
       !pyStarts m.message "Detected stars:" &&
       pyContains m.message "detected meteors:" then
      match pyRSplitChar1 m.message ':' with
      | [_, tok] => pyInt tok
      | _ => none
    else none
  | none => none

/-- Feeding a sequence of documents through `set_data`. -/
def foldSetData (docs : List PyDict) (st : ServerState) : Except PyErr ServerState :=
  docs.foldlM (fun s d => set_data d s) st

/-- What a rollover `set_data` leaves of an incoming document whose
`capture.running` is truthy: the marker deleted, `error`/`critical`
stripped. -/
def cleanDoc (d : PyDict) : PyDict :=
  dictDel (dictDel (dictDel d "end_of_day") "error") "critical"

/-- The sequence of documents a run of rollover `set_data` calls
appends to the history deque: the current document before each call
(after the first call the stored document is the cleaned previous
incoming one). -/
def archSeq (cur : PyDict) : List PyDict → List PyDict
  | [] => []
  | d :: rest => cur :: archSeq (cleanDoc d) rest

/-- The date contributed to `get_previous_dates` by one history entry,
`none` when the entry is skipped or would raise. -/
def dateOfEntry (e : PyDict) : Option String :=
  match previousDateOf e with
  | .ok r => r
  | .error _ => none

/-- Well-formedness of a history entry for the date listing: either it
is skipped (no `capture`, or no `capture.started`), or `started` is a
string with a `T` separator. -/
def entryDatesOk (e : PyDict) : Prop :=
  dictGet? e "capture" = none ∨
  (∃ cd, dictGet? e "capture" = some (.pdict cd) ∧
    (dictGet? cd "started" = none ∨
     ∃ s, dictGet? cd "started" = some (.pstr s) ∧
       (pySplit s "T" (some 1)).length = 2))

/-- A history entry that is malformed in the sense of claim C8: it lacks
the `capture` section or lacks `capture.started`. -/
def entryMalformed (e : PyDict) : Prop :=
  dictGet? e "capture" = none ∨
  (∃ cd, dictGet? e "capture" = some (.pdict cd) ∧ dictGet? cd "started" = none)

/-- The per-document hypotheses of claim C6: the incoming document
carries a truthy rollover marker, a `capture` dict with a truthy
`running` flag and a `T`-separated `started` string. -/
def rolloverDocOk (d : PyDict) : Prop :=
  dictGet? d "end_of_day" = some (.pbool true) ∧
  ∃ cd, dictGet? d "capture" = some (.pdict cd) ∧
    dictGet? cd "running" = some (.pbool true) ∧
    ∃ s, dictGet? cd "started" = some (.pstr s) ∧
      (pySplit s "T" (some 1)).length = 2

/-! ### Concrete fixtures used by counterexamples and witnesses -/

/-- An UploadManager start-of-upload log line. -/
def uploadStartLineA : String :=
  "2025/08/09 21:00:00-INFO-UploadManager-line:50 - Starting upload of /a/b/y.fits"

/-- The first line of the upload-pairing scenario of claim C5. -/
def uploadStartLineB : String :=
  "2025/08/09 21:10:00-INFO-UploadManager-line:60 - Starting upload of /a/b/x.fits"

/-- A document with the four sections present and empty upload lists, as
a run of the parser would have produced them. -/
def uploadScenarioDoc : PyDict :=
  [("capture", .pdict []),
   ("detections", .pdict [("n_star", .pint 0)]),
   ("camera", .pdict []),
   ("upload", .pdict [("attempted", .plist []), ("completed", .plist [])])]

/-- A previous current document whose run had `capture.running = false`
(the C1 counterexample's archived run). -/
def cexPrevDoc : PyDict :=
  [("capture", .pdict [("running", .pbool false),
                       ("updated", .pstr "2025-08-09T13:19:51Z")])]

/-- Store state holding `cexPrevDoc` as the current document. -/
def cexStore : ServerState := { initServerState 7 with data := cexPrevDoc }

/-- An incoming rollover document with `capture.running = true` and a
nonzero meteor counter (the C1 counterexample's incoming document). -/
def cexIncoming : PyDict :=
  [("capture", .pdict [("running", .pbool true),
                       ("updated", .pstr "2025-08-10T01:00:00Z")]),
   ("detections", .pdict [("n_meteor", .pint 5),
                          ("updated", .pstr "2025-08-10T01:00:00Z")]),
   ("end_of_day", .pbool true)]

/-- A store whose history holds a single empty (hence malformed)
entry. -/
def cexHistStore : ServerState := { initServerState 7 with previous_data := [[]] }

/-- The store state `set_data cexIncoming cexStore` produces. -/
def cexStore2 : ServerState :=
  match set_data cexIncoming cexStore with
  | .ok s => s
  | .error _ => initServerState 0

/-- A well-formed rollover document for day 1 (running capture). -/
def rollDoc1 : PyDict :=
  [("capture", .pdict [("running", .pbool true),
                       ("started", .pstr "2025-08-09T13:19:51Z"),
                       ("updated", .pstr "2025-08-09T13:19:51Z")]),
   ("end_of_day", .pbool true)]

/-- A well-formed rollover document for day 2 (running capture). -/
def rollDoc2 : PyDict :=
  [("capture", .pdict [("running", .pbool true),
                       ("started", .pstr "2025-08-10T13:20:05Z"),
                       ("updated", .pstr "2025-08-10T13:20:05Z")]),
   ("end_of_day", .pbool true)]

/-- The store state after feeding both rollover documents through
`set_data` with a history capacity of 1. -/
def rollStoreF : ServerState :=
  match foldSetData [rollDoc1, rollDoc2] (initServerState 1) with
  | .ok s => s
  | .error _ => initServerState 0

/-! ## Lemmas about the dictionary model -/

theorem dictHas_cons (k1 : String) (v1 : PyVal) (d : PyDict) (k : String) :
    dictHas ((k1, v1) :: d) k = (k1 == k || dictHas d k) := by
  simp [dictHas]

theorem dictGet?_cons (k1 : String) (v1 : PyVal) (d : PyDict) (k : String) :
    dictGet? ((k1, v1) :: d) k = if k1 == k then some v1 else dictGet? d k := by
  simp only [dictGet?, List.find?]
  by_cases h : k1 == k <;> simp [h]

theorem dictHas_nil (k : String) : dictHas [] k = false := rfl

theorem dictGet?_isSome_of_has (d : PyDict) (k : String) (h : dictHas d k = true) :
    (dictGet? d k).isSome := by
  induction d with
  | nil => simp [dictHas] at h
  | cons p rest ih =>
    obtain ⟨k1, v1⟩ := p
    rw [dictHas_cons] at h
    rw [dictGet?_cons]
    by_cases hk : k1 == k
    · simp [hk]
    · simp [hk] at h ⊢
      exact ih h

theorem dictHas_of_get? (d : PyDict) (k : String) (v : PyVal)
    (h : dictGet? d k = some v) : dictHas d k = true := by
  induction d with
  | nil => simp [dictGet?] at h
  | cons p rest ih =>
    obtain ⟨k1, v1⟩ := p
    rw [dictGet?_cons] at h
    rw [dictHas_cons]
    by_cases hk : k1 == k
    · simp [hk]
    · simp [hk] at h ⊢
      exact ih h

theorem ne_nil_of_has (d : PyDict) (k : String) (h : dictHas d k = true) :
    d.isEmpty = false := by
  cases d with
  | nil => simp [dictHas] at h
  | cons p rest => rfl

theorem mapset_get_self (d : PyDict) (k : String) (v : PyVal)
    (h : dictHas d k = true) :
    dictGet? (d.map (fun p => if p.1 = k then (k, v) else p)) k = some v := by
  induction d with
  | nil => simp [dictHas] at h
  | cons p rest ih =>
    obtain ⟨k1, v1⟩ := p
    rw [dictHas_cons] at h
    by_cases hk : k1 = k
    · subst hk
      simp [dictGet?_cons]
    · have h2 : dictHas rest k = true := by simpa [hk] using h
      simp [hk, dictGet?_cons, ih h2]

theorem mapset_get_ne (d : PyDict) (k k2 : String) (v : PyVal) (h : k ≠ k2) :
    dictGet? (d.map (fun p => if p.1 = k then (k, v) else p)) k2 = dictGet? d k2 := by
  induction d with
  | nil => rfl
  | cons p rest ih =>
    obtain ⟨k1, v1⟩ := p
    by_cases hk : k1 = k
    · subst hk
      simp [dictGet?_cons, h, ih]
    · by_cases h2 : k1 = k2
      · subst h2
        simp [dictGet?_cons, hk]
      · simp [dictGet?_cons, hk, h2, ih]

theorem mapset_has (d : PyDict) (k : String) (v : PyVal) (k2 : String) :
    dictHas (d.map (fun p => if p.1 = k then (k, v) else p)) k2 = dictHas d k2 := by
  induction d with
  | nil => rfl
  | cons p rest ih =>
    obtain ⟨k1, v1⟩ := p
    by_cases hk : k1 = k
    · subst hk
      simp [dictHas_cons, ih]
    · simp [dictHas_cons, hk, ih]

theorem append_get_self (d : PyDict) (k : String) (v : PyVal)
    (h : dictHas d k = false) : dictGet? (d ++ [(k, v)]) k = some v := by
  induction d with
  | nil => simp [dictGet?_cons]
  | cons p rest ih =>
    obtain ⟨k1, v1⟩ := p
    rw [dictHas_cons] at h
    simp only [Bool.or_eq_false_iff] at h
    have hk : ¬ k1 = k := by
      intro hx
      rw [hx] at h
      simp at h
    simp [dictGet?_cons, hk, ih h.2]

theorem append_get_ne (d : PyDict) (k k2 : String) (v : PyVal) (h : k ≠ k2) :
    dictGet? (d ++ [(k, v)]) k2 = dictGet? d k2 := by
  induction d with
  | nil => simp [dictGet?_cons, h, dictGet?]
  | cons p rest ih =>
    obtain ⟨k1, v1⟩ := p
    by_cases h2 : k1 = k2
    · simp [dictGet?_cons, h2]
    · simp [dictGet?_cons, h2, ih]

theorem append_has_ne (d : PyDict) (k k2 : String) (v : PyVal) (h : k ≠ k2) :
    dictHas (d ++ [(k, v)]) k2 = dictHas d k2 := by
  induction d with
  | nil => simp [dictHas_cons, h, dictHas]
  | cons p rest ih =>
    obtain ⟨k1, v1⟩ := p
    simp [dictHas_cons, ih]

theorem dictGet?_dictSet_self (d : PyDict) (k : String) (v : PyVal) :
    dictGet? (dictSet d k v) k = some v := by
  unfold dictSet
  by_cases h : dictHas d k
  · simp only [h, if_true]
    exact mapset_get_self d k v h
  · simp only [h, if_false]
    exact append_get_self d k v (by simpa using h)

theorem dictGet?_dictSet_ne (d : PyDict) (k k2 : String) (v : PyVal)
    (h : k ≠ k2) : dictGet? (dictSet d k v) k2 = dictGet? d k2 := by
  unfold dictSet
  by_cases hh : dictHas d k
  · simp only [hh, if_true]
    exact mapset_get_ne d k k2 v h
  · simp only [hh, if_false]
    exact append_get_ne d k k2 v h

theorem dictHas_dictSet_self (d : PyDict) (k : String) (v : PyVal) :
    dictHas (dictSet d k v) k = true :=
  dictHas_of_get? _ _ _ (dictGet?_dictSet_self d k v)

theorem dictHas_dictSet_ne (d : PyDict) (k k2 : String) (v : PyVal)
    (h : k ≠ k2) : dictHas (dictSet d k v) k2 = dictHas d k2 := by
  unfold dictSet
  by_cases hh : dictHas d k
  · simp only [hh, if_true]
    exact mapset_has d k v k2
  · simp only [hh, if_false]
    exact append_has_ne d k k2 v h

theorem dictDel_cons (k1 : String) (v1 : PyVal) (d : PyDict) (k : String) :
    dictDel ((k1, v1) :: d) k =
      if (k1 == k) = true then dictDel d k else (k1, v1) :: dictDel d k := by
  by_cases hk : (k1 == k) = true
  · have : (k1 != k) = false := by simpa [bne] using hk
    simp [dictDel, List.filter_cons, this, hk]
  · have : (k1 != k) = true := by simpa [bne] using hk
    simp [dictDel, List.filter_cons, this, hk]

theorem dictGet?_dictDel_self (d : PyDict) (k : String) :
    dictGet? (dictDel d k) k = none := by
  induction d with
  | nil => rfl
  | cons p rest ih =>
    obtain ⟨k1, v1⟩ := p
    rw [dictDel_cons]
    by_cases hk : (k1 == k) = true
    · simp [hk, ih]
    · have hk' : (k1 == k) = false := by simpa using hk
      simp [hk', dictGet?_cons, ih]

theorem dictGet?_dictDel_ne (d : PyDict) (k k2 : String) (h : k ≠ k2) :
    dictGet? (dictDel d k) k2 = dictGet? d k2 := by
  induction d with
  | nil => rfl
  | cons p rest ih =>
    obtain ⟨k1, v1⟩ := p
    rw [dictDel_cons]
    by_cases hk : (k1 == k) = true
    · have hk1 : k1 = k := by simpa using hk
      have hk12 : (k1 == k2) = false := by rw [hk1]; simpa using h
      simp [hk, dictGet?_cons, hk12, ih]
    · have hk' : (k1 == k) = false := by simpa using hk
      by_cases h2 : (k1 == k2) = true
      · simp [hk', dictGet?_cons, h2]
      · have h2' : (k1 == k2) = false := by simpa using h2
        simp [hk', dictGet?_cons, h2', ih]

theorem dictHas_dictDel_self (d : PyDict) (k : String) :
    dictHas (dictDel d k) k = false := by
  induction d with
  | nil => rfl
  | cons p rest ih =>
    obtain ⟨k1, v1⟩ := p
    rw [dictDel_cons]
    by_cases hk : (k1 == k) = true
    · simp [hk, ih]
    · have hk' : (k1 == k) = false := by simpa using hk
      simp [hk', dictHas_cons, ih]

theorem dictHas_dictDel_ne (d : PyDict) (k k2 : String) (h : k ≠ k2) :
    dictHas (dictDel d k) k2 = dictHas d k2 := by
  induction d with
  | nil => rfl
  | cons p rest ih =>
    obtain ⟨k1, v1⟩ := p
    rw [dictDel_cons]
    by_cases hk : (k1 == k) = true
    · have hk1 : k1 = k := by simpa using hk
      have hk12 : (k1 == k2) = false := by rw [hk1]; simpa using h
      simp [hk, dictHas_cons, hk12, ih]
    · have hk' : (k1 == k) = false := by simpa using hk
      simp [hk', dictHas_cons, ih]

theorem dictGet2?_of_get? (d : PyDict) (k1 k2 : String) (inner : List (String × PyVal))
    (h : dictGet? d k1 = some (.pdict inner)) :
    dictGet2? d k1 k2 = dictGet? inner k2 := by
  unfold dictGet2?
  rw [h]

theorem exbind_ok {α β : Type} (a : α) (f : α → Except PyErr β) :
    (Except.ok a >>= f) = f a := rfl

theorem exbind_error {α β : Type} (e : PyErr) (f : α → Except PyErr β) :
    ((Except.error e : Except PyErr α) >>= f) = Except.error e := rfl

theorem expure_eq {α : Type} (a : α) : (pure a : Except PyErr α) = Except.ok a := rfl

/-- Elimination principle for a successful `dictSet2`. -/
theorem dictSet2_ok (d : PyDict) (k1 k2 : String) (v : PyVal) (d2 : PyDict)
    (h : dictSet2 d k1 k2 v = .ok d2) :
    ∃ inner, dictGet? d k1 = some (.pdict inner) ∧
      d2 = dictSet d k1 (.pdict (dictSet inner k2 v)) := by
  unfold dictSet2 at h
  cases hg : dictGet? d k1 with
  | none => rw [hg] at h; cases h
  | some val =>
    rw [hg] at h
    cases val with
    | pdict inner =>
      refine ⟨inner, rfl, ?_⟩
      cases h
      rfl
    | pnone => cases h
    | pbool b => cases h
    | pint n => cases h
    | pfloat q => cases h
    | pstr s => cases h
    | plist xs => cases h

theorem get?_none_of_not_has (d : PyDict) (k : String)
    (h : dictHas d k = false) : dictGet? d k = none := by
  cases hg : dictGet? d k with
  | none => rfl
  | some v =>
    rw [dictHas_of_get? d k v hg] at h
    cases h

theorem dictSet2_get2_self (d : PyDict) (k1 k2 : String) (v : PyVal) (d2 : PyDict)
    (h : dictSet2 d k1 k2 v = .ok d2) : dictGet2? d2 k1 k2 = some v := by
  obtain ⟨inner, hin, rfl⟩ := dictSet2_ok d k1 k2 v d2 h
  unfold dictGet2?
  rw [dictGet?_dictSet_self]
  exact dictGet?_dictSet_self inner k2 v

theorem dictSet2_get2_other (d : PyDict) (k1 k2 k2' : String) (v : PyVal)
    (d2 : PyDict) (h : dictSet2 d k1 k2 v = .ok d2) (hne : k2 ≠ k2') :
    dictGet2? d2 k1 k2' = dictGet2? d k1 k2' := by
  obtain ⟨inner, hin, rfl⟩ := dictSet2_ok d k1 k2 v d2 h
  unfold dictGet2?
  rw [dictGet?_dictSet_self, hin]
  exact dictGet?_dictSet_ne inner k2 k2' v hne

theorem dictSet2_get_other1 (d : PyDict) (k1 k2 k : String) (v : PyVal)
    (d2 : PyDict) (h : dictSet2 d k1 k2 v = .ok d2) (hne : k1 ≠ k) :
    dictGet? d2 k = dictGet? d k := by
  obtain ⟨inner, hin, rfl⟩ := dictSet2_ok d k1 k2 v d2 h
  exact dictGet?_dictSet_ne d k1 k _ hne

theorem dictSet2_get2_other1 (d : PyDict) (k1 k2 k k' : String) (v : PyVal)
    (d2 : PyDict) (h : dictSet2 d k1 k2 v = .ok d2) (hne : k1 ≠ k) :
    dictGet2? d2 k k' = dictGet2? d k k' := by
  unfold dictGet2?
  rw [dictSet2_get_other1 d k1 k2 k v d2 h hne]

theorem dictSet2_has (d : PyDict) (k1 k2 : String) (v : PyVal) (d2 : PyDict)
    (h : dictSet2 d k1 k2 v = .ok d2) (k : String) :
    dictHas d2 k = dictHas d k := by
  obtain ⟨inner, hin, rfl⟩ := dictSet2_ok d k1 k2 v d2 h
  by_cases hk : k1 = k
  · subst hk
    rw [dictHas_dictSet_self, dictHas_of_get? d k1 _ hin]
  · exact dictHas_dictSet_ne d k1 k _ hk

theorem dictGet2?_dictDel_ne (d : PyDict) (k k1 k2 : String) (h : k ≠ k1) :
    dictGet2? (dictDel d k) k1 k2 = dictGet2? d k1 k2 := by
  unfold dictGet2?
  rw [dictGet?_dictDel_ne d k k1 h]

theorem dictGet?_cleanDoc (d : PyDict) (k : String)
    (h1 : k ≠ "end_of_day") (h2 : k ≠ "error") (h3 : k ≠ "critical") :
    dictGet? (cleanDoc d) k = dictGet? d k := by
  unfold cleanDoc
  rw [dictGet?_dictDel_ne _ _ _ (fun hx => h3 hx.symm),
      dictGet?_dictDel_ne _ _ _ (fun hx => h2 hx.symm),
      dictGet?_dictDel_ne _ _ _ (fun hx => h1 hx.symm)]

theorem dictGet2?_cleanDoc (d : PyDict) (k1 k2 : String)
    (h1 : k1 ≠ "end_of_day") (h2 : k1 ≠ "error") (h3 : k1 ≠ "critical") :
    dictGet2? (cleanDoc d) k1 k2 = dictGet2? d k1 k2 := by
  unfold dictGet2?
  rw [dictGet?_cleanDoc d k1 h1 h2 h3]

/-- Everything a successful `rolloverResets` guarantees: the nine reset
fields hold their zero/sentinel values, the top-level key set is
unchanged, and sections other than `capture`/`detections` are
untouched. -/
theorem rolloverResets_ok_elim (d1 d2 : PyDict)
    (h : rolloverResets d1 = .ok d2) :
    dictGet2? d2 "capture" "duration_hr" = some (.pfloat 0) ∧
    dictGet2? d2 "capture" "started" = some (.pstr DUMMY_TIME) ∧
    dictGet2? d2 "capture" "latest_block" = some (.pstr DUMMY_TIME) ∧
    dictGet2? d2 "capture" "block_max_age_s" = some (.pfloat 0) ∧
    dictGet2? d2 "capture" "n_frames_dropped" = some (.pint 0) ∧
    dictGet2? d2 "capture" "latest_all_white" = some (.pstr DUMMY_TIME) ∧
    dictGet2? d2 "detections" "n_meteor" = some (.pint 0) ∧
    dictGet2? d2 "detections" "last_meteor" = some (.pstr DUMMY_TIME) ∧
    dictGet2? d2 "detections" "n_meteor_final" = some (.pint 0) ∧
    (∀ k, dictHas d2 k = dictHas d1 k) := by
  have nedc : ("detections" : String) ≠ "capture" := by decide
  unfold rolloverResets at h
  cases e1 : dictSet2 d1 "capture" "duration_hr" (.pfloat 0) with
  | error e => rw [e1, exbind_error] at h; cases h
  | ok x1 =>
  rw [e1, exbind_ok] at h
  cases e2 : dictSet2 x1 "capture" "started" (.pstr DUMMY_TIME) with
  | error e => rw [e2, exbind_error] at h; cases h
  | ok x2 =>
  rw [e2, exbind_ok] at h
  cases e3 : dictSet2 x2 "capture" "latest_block" (.pstr DUMMY_TIME) with
  | error e => rw [e3, exbind_error] at h; cases h
  | ok x3 =>
  rw [e3, exbind_ok] at h
  cases e4 : dictSet2 x3 "capture" "block_max_age_s" (.pfloat 0) with
  | error e => rw [e4, exbind_error] at h; cases h
  | ok x4 =>
  rw [e4, exbind_ok] at h
  cases e5 : dictSet2 x4 "capture" "n_frames_dropped" (.pint 0) with
  | error e => rw [e5, exbind_error] at h; cases h
  | ok x5 =>
  rw [e5, exbind_ok] at h
  cases e6 : dictSet2 x5 "capture" "latest_all_white" (.pstr DUMMY_TIME) with
  | error e => rw [e6, exbind_error] at h; cases h
  | ok x6 =>
  rw [e6, exbind_ok] at h
  cases e7 : dictSet2 x6 "detections" "n_meteor" (.pint 0) with
  | error e => rw [e7, exbind_error] at h; cases h
  | ok x7 =>
  rw [e7, exbind_ok] at h
  cases e8 : dictSet2 x7 "detections" "last_meteor" (.pstr DUMMY_TIME) with
  | error e => rw [e8, exbind_error] at h; cases h
  | ok x8 =>
  rw [e8, exbind_ok] at h
  cases e9 : dictSet2 x8 "detections" "n_meteor_final" (.pint 0) with
  | error e => rw [e9, exbind_error] at h; cases h
  | ok x9 =>
  rw [e9, exbind_ok, expure_eq] at h
  have hd2 : d2 = x9 := by cases h; rfl
  subst hd2
  refine ⟨?_, ?_, ?_, ?_, ?_, ?_, ?_, ?_, ?_, ?_⟩
  · rw [dictSet2_get2_other1 _ _ _ _ _ _ _ e9 nedc,
        dictSet2_get2_other1 _ _ _ _ _ _ _ e8 nedc,
        dictSet2_get2_other1 _ _ _ _ _ _ _ e7 nedc,
        dictSet2_get2_other _ _ _ _ _ _ e6 (by decide),
        dictSet2_get2_other _ _ _ _ _ _ e5 (by decide),
        dictSet2_get2_other _ _ _ _ _ _ e4 (by decide),
        dictSet2_get2_other _ _ _ _ _ _ e3 (by decide),
        dictSet2_get2_other _ _ _ _ _ _ e2 (by decide)]
    exact dictSet2_get2_self _ _ _ _ _ e1
  · rw [dictSet2_get2_other1 _ _ _ _ _ _ _ e9 nedc,
        dictSet2_get2_other1 _ _ _ _ _ _ _ e8 nedc,
        dictSet2_get2_other1 _ _ _ _ _ _ _ e7 nedc,
        dictSet2_get2_other _ _ _ _ _ _ e6 (by decide),
        dictSet2_get2_other _ _ _ _ _ _ e5 (by decide),
        dictSet2_get2_other _ _ _ _ _ _ e4 (by decide),
        dictSet2_get2_other _ _ _ _ _ _ e3 (by decide)]
    exact dictSet2_get2_self _ _ _ _ _ e2
  · rw [dictSet2_get2_other1 _ _ _ _ _ _ _ e9 nedc,
        dictSet2_get2_other1 _ _ _ _ _ _ _ e8 nedc,
        dictSet2_get2_other1 _ _ _ _ _ _ _ e7 nedc,
        dictSet2_get2_other _ _ _ _ _ _ e6 (by decide),
        dictSet2_get2_other _ _ _ _ _ _ e5 (by decide),
        dictSet2_get2_other _ _ _ _ _ _ e4 (by decide)]
    exact dictSet2_get2_self _ _ _ _ _ e3
  · rw [dictSet2_get2_other1 _ _ _ _ _ _ _ e9 nedc,
        dictSet2_get2_other1 _ _ _ _ _ _ _ e8 nedc,
        dictSet2_get2_other1 _ _ _ _ _ _ _ e7 nedc,
        dictSet2_get2_other _ _ _ _ _ _ e6 (by decide),
        dictSet2_get2_other _ _ _ _ _ _ e5 (by decide)]
    exact dictSet2_get2_self _ _ _ _ _ e4
  · rw [dictSet2_get2_other1 _ _ _ _ _ _ _ e9 nedc,
        dictSet2_get2_other1 _ _ _ _ _ _ _ e8 nedc,
        dictSet2_get2_other1 _ _ _ _ _ _ _ e7 nedc,
        dictSet2_get2_other _ _ _ _ _ _ e6 (by decide)]
    exact dictSet2_get2_self _ _ _ _ _ e5
  · rw [dictSet2_get2_other1 _ _ _ _ _ _ _ e9 nedc,
        dictSet2_get2_other1 _ _ _ _ _ _ _ e8 nedc,
        dictSet2_get2_other1 _ _ _ _ _ _ _ e7 nedc]
    exact dictSet2_get2_self _ _ _ _ _ e6
  · rw [dictSet2_get2_other _ _ _ _ _ _ e9 (by decide),
        dictSet2_get2_other _ _ _ _ _ _ e8 (by decide)]
    exact dictSet2_get2_self _ _ _ _ _ e7
  · rw [dictSet2_get2_other _ _ _ _ _ _ e9 (by decide)]
    exact dictSet2_get2_self _ _ _ _ _ e8
  · exact dictSet2_get2_self _ _ _ _ _ e9
  · intro k
    rw [dictSet2_has _ _ _ _ _ e9 k, dictSet2_has _ _ _ _ _ e8 k,
        dictSet2_has _ _ _ _ _ e7 k, dictSet2_has _ _ _ _ _ e6 k,
        dictSet2_has _ _ _ _ _ e5 k, dictSet2_has _ _ _ _ _ e4 k,
        dictSet2_has _ _ _ _ _ e3 k, dictSet2_has _ _ _ _ _ e2 k,
        dictSet2_has _ _ _ _ _ e1 k]

/-- Everything a successful rollover `set_data` guarantees: the incoming
document must expose `capture.running`; the ring receives the previous
current document (deque semantics); and the new current document is the
incoming one with the marker deleted, the resets applied iff the
*incoming* `capture.running` is falsy, and `error`/`critical`
stripped. -/
theorem truthy_pbool (b : Bool) : (PyVal.pbool b).truthy = b := rfl

theorem set_data_marker_elim (doc : PyDict) (st st2 : ServerState)
    (hmark : dictGet? doc "end_of_day" = some (.pbool true))
    (hok : set_data doc st = .ok st2) :
    ∃ cd rv d2,
      dictGet? doc "capture" = some (.pdict cd) ∧
      dictGet? cd "running" = some rv ∧
      (if rv.truthy then pure (dictDel doc "end_of_day")
        else rolloverResets (dictDel doc "end_of_day")) = Except.ok d2 ∧
      st2.max_history = st.max_history ∧
      st2.previous_data = dequeAppend st.max_history st.previous_data st.data ∧
      st2.data = dictDel (dictDel d2 "error") "critical" := by
  have h1 : dictHas doc "end_of_day" = true := dictHas_of_get? _ _ _ hmark
  unfold set_data at hok
  rw [h1, hmark] at hok
  simp only [Option.getD_some, truthy_pbool, eq_self_iff_true, if_true] at hok
  cases ha : archiveUpdated st.data with
  | error e =>
    rw [ha] at hok
    simp only [exbind_error] at hok
    cases hok
  | ok u =>
  rw [ha] at hok
  simp only [exbind_ok] at hok
  cases hts : iso_to_timestamp u with
  | error e =>
    rw [hts] at hok
    simp only [exbind_error] at hok
    cases hok
  | ok ts =>
  rw [hts] at hok
  simp only [exbind_ok] at hok
  have hcap : dictGet? (dictDel doc "end_of_day") "capture" = dictGet? doc "capture" :=
    dictGet?_dictDel_ne _ _ _ (by decide)
  rw [dictGet, hcap] at hok
  cases hc : dictGet? doc "capture" with
  | none =>
    rw [hc] at hok
    simp only [exbind_error] at hok
    cases hok
  | some cap =>
  rw [hc] at hok
  cases cap with
  | pdict cd =>
    simp only [exbind_ok] at hok
    rw [dictGet] at hok
    cases hr : dictGet? cd "running" with
    | none =>
      rw [hr] at hok
      simp only [exbind_error] at hok
      cases hok
    | some rv =>
    rw [hr] at hok
    simp only [exbind_ok] at hok
    cases hd2 : (if rv.truthy then (pure (dictDel doc "end_of_day") : Except PyErr PyDict)
        else rolloverResets (dictDel doc "end_of_day")) with
    | error e =>
      rw [hd2] at hok
      simp only [exbind_error] at hok
      cases hok
    | ok d2 =>
    rw [hd2] at hok
    simp only [expure_eq, exbind_ok] at hok
    cases hcu : currentUpdated (dictDel (dictDel d2 "error") "critical") with
    | error e =>
      rw [hcu] at hok
      simp only [exbind_error] at hok
      cases hok
    | ok u2 =>
    rw [hcu] at hok
    simp only [exbind_ok] at hok
    cases hts2 : iso_to_timestamp u2 with
    | error e =>
      rw [hts2] at hok
      simp only [exbind_error] at hok
      cases hok
    | ok ts2 =>
    rw [hts2] at hok
    simp only [exbind_ok, expure_eq] at hok
    cases hok
    exact ⟨cd, rv, d2, rfl, hr, hd2, rfl, rfl, rfl⟩
  | pnone =>
    simp only [exbind_error] at hok
    cases hok
  | pbool b =>
    simp only [exbind_error] at hok
    cases hok
  | pint n =>
    simp only [exbind_error] at hok
    cases hok
  | pfloat q =>
    simp only [exbind_error] at hok
    cases hok
  | pstr s =>
    simp only [exbind_error] at hok
    cases hok
  | plist xs =>
    simp only [exbind_error] at hok
    cases hok

/-! ## Small list facts used by the claim theorems -/

theorem getLast?_some_mem {α : Type} (l : List α) (a : α)
    (h : l.getLast? = some a) : a ∈ l := by
  induction l with
  | nil => cases h
  | cons x t ih =>
    cases t with
    | nil =>
      simp [List.getLast?] at h
      simp [h]
    | cons y u =>
      rw [List.getLast?_cons_cons] at h
      exact List.mem_cons_of_mem x (ih h)

theorem getD_set_self (l : List PyDict) (a : Nat) (x : PyDict)
    (h : a < l.length) : (l.set a x).getD a [] = x := by
  induction l generalizing a with
  | nil => simp at h
  | cons y t ih =>
    cases a with
    | zero => rfl
    | succ n =>
      simp only [List.set_cons_succ, List.getD_cons_succ]
      exact ih n (by simpa using h)

theorem getD_concat_length (l : List PyDict) (x : PyDict) :
    (l ++ [x]).getD l.length [] = x := by
  induction l with
  | nil => rfl
  | cons y t ih => simp [ih]

theorem findPreviousByDateRef_mem (h : List PyDict) (as : List Nat)
    (date : String) (b : Nat)
    (hb : findPreviousByDateRef h as date = .ok (some b)) : b ∈ as := by
  induction as with
  | nil =>
    simp [findPreviousByDateRef, pure, Except.pure] at hb
  | cons x t ih =>
    unfold findPreviousByDateRef at hb
    cases hm : entryMatchesDate (heapRead h x) date with
    | error e =>
      rw [hm, exbind_error] at hb
      cases hb
    | ok matched =>
      rw [hm, exbind_ok] at hb
      cases matched with
      | true =>
        simp only [if_pos, expure_eq, Except.ok.injEq, Option.some.injEq] at hb
        rw [← hb]
        exact List.mem_cons_self x t
      | false =>
        simp only [Bool.false_eq_true, if_neg, not_false_eq_true] at hb
        exact List.mem_cons_of_mem x (ih hb)

theorem filter_length_lt_of_find? {α : Type} (p : α → Bool) (l : List α) (a : α)
    (h : l.find? p = some a) :
    (l.filter (fun x => !p x)).length < l.length := by
  induction l with
  | nil => cases h
  | cons x t ih =>
    by_cases hp : p x = true
    · simp only [List.filter_cons, hp, Bool.not_true, Bool.false_eq_true,
        if_neg, not_false_eq_true, List.length_cons]
      exact Nat.lt_succ_of_le (List.length_filter_le _ t)
    · have hp' : p x = false := by simpa using hp
      rw [List.find?_cons_of_neg _ (by simp [hp'])] at h
      simp only [List.filter_cons, hp', Bool.not_false, if_pos, List.length_cons]
      exact Nat.succ_lt_succ (ih h)

/-! ## Claim theorems -/

/-- Claim C2 (code bug): `parse_log_line` is specified never to raise,
but the `UploadManager` "Starting upload of" branch calls
`os.path.basename` while `log.py` never imports `os`, so this
well-formed upload line makes `parse_log_line` raise `NameError`
instead of returning a document. -/
theorem parse_log_line_upload_raises :
    parse_log_line uploadStartLineA none initPState = .error .nameError := rfl

/-- Claim C5 (code bug): the upload-pairing scenario
"Starting upload of /a/b/x.fits" then "Upload successful!" cannot yield
`upload.attempted = []` and `upload.completed = ["x.fits"]`, because the
very first line already raises `NameError` (missing `import os` in
`log.py`), so the claimed final state is unreachable. -/
theorem upload_pairing_scenario_raises :
    parse_log_line uploadStartLineB (some uploadScenarioDoc) initPState =
      .error .nameError := rfl

/-- Counterexample to claim C1 as stated: the archived run (the previous
current document) has `capture.running = false`, the incoming rollover
document carries the marker, yet its `detections.n_meteor = 5` is *not*
reset to zero — `set_data` keys the reset on the incoming document's own
`capture.running` (here truthy), not on the archived run's. -/
theorem set_data_reset_keyed_on_incoming_cex :
    dictGet2? cexStore.data "capture" "running" = some (.pbool false) ∧
    dictGet? cexIncoming "end_of_day" = some (.pbool true) ∧
    (set_data cexIncoming cexStore).map
        (fun st => (st.previous_data, dictGet2? st.data "detections" "n_meteor")) =
      .ok ([cexPrevDoc], some (.pint 5)) ∧
    PyVal.pint 5 ≠ PyVal.pint 0 := by
  refine ⟨rfl, rfl, rfl, ?_⟩
  intro h
  injection h with h2
  exact absurd h2 (by decide)

/-- Counterexample to claim C8 as stated: a history whose only entry is
the empty document (no `capture` section).  `get_previous_dates` and the
date-less lookup do return normally, but `get_previous_data` with a date
raises `KeyError` on the malformed entry instead of skipping it. -/
theorem get_previous_data_date_raises_cex :
    cexHistStore.previous_data = [[]] ∧
    dictGet? ([] : PyDict) "capture" = none ∧
    get_previous_dates cexHistStore = .ok [] ∧
    get_previous_data none cexHistStore = .ok (some []) ∧
    get_previous_data (some "20250809") cexHistStore = .error .keyError :=
  ⟨rfl, rfl, rfl, rfl, rfl⟩

/-- Counterexample to claim C7 as stated: a log of two fully-read lines
`A`, `B` is appended with the single complete line `C`; the next poll
feeds `tail -n100` re-split on newlines — four elements including the
already-delivered `A` and `B` (and the empty tail artefact of the final
newline) — not exactly the one new line, and the loop keeps no byte
offset at all. -/
theorem tail_poll_redelivers_cex :
    polled_lines ("A\nB\nC\n".data) = [['A'], ['B'], ['C'], []] ∧
    [['A'], ['B'], ['C'], ([] : List Char)] ≠ [['C']] :=
  ⟨rfl, by decide⟩

/-- Counterexample to claim C9 as stated: with `lifetime = 10`, key `1`
is cached at time 0 and key `2` at time 9; under per-combination
independent expiry the entry for key `2` would live until time 19, but
the call for key `2` at time 10 hits the single function-wide deadline,
clears the whole cache and recomputes it — the underlying function runs
3 times, not the 2 times independent expiry would give. -/
theorem timed_lru_shared_expiry_cex :
    (timed_lru_run id 8 10
      [((0 : PyQ), (1 : Nat)), ((9 : PyQ), 2), ((10 : PyQ), 2)]
      (tlcInit Nat Nat 10 0)).calls = 3 ∧
    (timed_lru_run id 8 10
      [((0 : PyQ), (1 : Nat)), ((9 : PyQ), 2), ((10 : PyQ), 2)]
      (tlcInit Nat Nat 10 0)).entries = [(2, 2)] ∧
    (3 : Nat) ≠ 2 :=
  ⟨rfl, rfl, by decide⟩

/-- Claim C1 amended: on a marker-carrying `set_data`, a deep copy of
the previous current document is archived into the ring (evicting the
oldest at capacity), the marker is cleared and `error`/`critical`
stripped, and the counter/timestamp resets are applied iff the
*incoming* document's `capture.running` is falsy — not, as the claim
stated, iff the archived run's was. -/
theorem set_data_rollover (doc : PyDict) (st st2 : ServerState)
    (hmark : dictGet? doc "end_of_day" = some (.pbool true))
    (hok : set_data doc st = .ok st2) :
    st2.previous_data = dequeAppend st.max_history st.previous_data st.data ∧
    dictHas st2.data "end_of_day" = false ∧
    dictHas st2.data "error" = false ∧
    dictHas st2.data "critical" = false ∧
    (∀ cd rv, dictGet? doc "capture" = some (.pdict cd) →
      dictGet? cd "running" = some rv →
      ((rv.truthy = true →
        dictGet2? st2.data "detections" "n_meteor" =
          dictGet2? doc "detections" "n_meteor" ∧
        dictGet2? st2.data "capture" "duration_hr" =
          dictGet2? doc "capture" "duration_hr") ∧
       (rv.truthy = false →
        dictGet2? st2.data "capture" "duration_hr" = some (.pfloat 0) ∧
        dictGet2? st2.data "capture" "started" = some (.pstr DUMMY_TIME) ∧
        dictGet2? st2.data "capture" "latest_block" = some (.pstr DUMMY_TIME) ∧
        dictGet2? st2.data "capture" "n_frames_dropped" = some (.pint 0) ∧
        dictGet2? st2.data "capture" "latest_all_white" = some (.pstr DUMMY_TIME) ∧
        dictGet2? st2.data "detections" "n_meteor" = some (.pint 0) ∧
        dictGet2? st2.data "detections" "last_meteor" = some (.pstr DUMMY_TIME) ∧
        dictGet2? st2.data "detections" "n_meteor_final" = some (.pint 0)))) := by
  obtain ⟨cd0, rv0, d2, hc0, hr0, hd20, hmh, hring, hdata⟩ :=
    set_data_marker_elim doc st st2 hmark hok
  have hd2eod : dictHas d2 "end_of_day" = false := by
    by_cases hrv : rv0.truthy = true
    · rw [if_pos hrv, expure_eq] at hd20
      cases hd20
      exact dictHas_dictDel_self doc "end_of_day"
    · rw [if_neg hrv] at hd20
      have := (rolloverResets_ok_elim _ _ hd20).2.2.2.2.2.2.2.2.2 "end_of_day"
      rw [this]
      exact dictHas_dictDel_self doc "end_of_day"
  refine ⟨hring, ?_, ?_, ?_, ?_⟩
  · rw [hdata, dictHas_dictDel_ne _ _ _ (by decide),
        dictHas_dictDel_ne _ _ _ (by decide)]
    exact hd2eod
  · rw [hdata, dictHas_dictDel_ne _ _ _ (by decide)]
    exact dictHas_dictDel_self _ "error"
  · rw [hdata]
    exact dictHas_dictDel_self _ "critical"
  · intro cd rv hc hr
    rw [hc0] at hc
    cases hc
    rw [hr0] at hr
    cases hr
    constructor
    · intro hrv
      rw [if_pos hrv, expure_eq] at hd20
      cases hd20
      rw [hdata]
      constructor
      · rw [dictGet2?_dictDel_ne _ _ _ _ (by decide),
            dictGet2?_dictDel_ne _ _ _ _ (by decide),
            dictGet2?_dictDel_ne _ _ _ _ (by decide)]
      · rw [dictGet2?_dictDel_ne _ _ _ _ (by decide),
            dictGet2?_dictDel_ne _ _ _ _ (by decide),
            dictGet2?_dictDel_ne _ _ _ _ (by decide)]
    · intro hrv
      rw [if_neg (by rw [hrv]; exact Bool.false_ne_true)] at hd20
      obtain ⟨p1, p2, p3, _, p5, p6, p7, p8, p9, _⟩ :=
        rolloverResets_ok_elim _ _ hd20
      rw [hdata]
      refine ⟨?_, ?_, ?_, ?_, ?_, ?_, ?_, ?_⟩ <;>
        rw [dictGet2?_dictDel_ne _ _ _ _ (by decide),
            dictGet2?_dictDel_ne _ _ _ _ (by decide)]
      · exact p1
      · exact p2
      · exact p3
      · exact p5
      · exact p6
      · exact p7
      · exact p8
      · exact p9

/-- Witness for `set_data_rollover` at the concrete rollover of
`cexIncoming` into `cexStore`. -/
theorem set_data_rollover_witness :
    cexStore2.previous_data =
      dequeAppend cexStore.max_history cexStore.previous_data cexStore.data ∧
    dictHas cexStore2.data "end_of_day" = false ∧
    dictHas cexStore2.data "error" = false ∧
    dictHas cexStore2.data "critical" = false ∧
    (∀ cd rv, dictGet? cexIncoming "capture" = some (.pdict cd) →
      dictGet? cd "running" = some rv →
      ((rv.truthy = true →
        dictGet2? cexStore2.data "detections" "n_meteor" =
          dictGet2? cexIncoming "detections" "n_meteor" ∧
        dictGet2? cexStore2.data "capture" "duration_hr" =
          dictGet2? cexIncoming "capture" "duration_hr") ∧
       (rv.truthy = false →
        dictGet2? cexStore2.data "capture" "duration_hr" = some (.pfloat 0) ∧
        dictGet2? cexStore2.data "capture" "started" = some (.pstr DUMMY_TIME) ∧
        dictGet2? cexStore2.data "capture" "latest_block" = some (.pstr DUMMY_TIME) ∧
        dictGet2? cexStore2.data "capture" "n_frames_dropped" = some (.pint 0) ∧
        dictGet2? cexStore2.data "capture" "latest_all_white" = some (.pstr DUMMY_TIME) ∧
        dictGet2? cexStore2.data "detections" "n_meteor" = some (.pint 0) ∧
        dictGet2? cexStore2.data "detections" "last_meteor" = some (.pstr DUMMY_TIME) ∧
        dictGet2? cexStore2.data "detections" "n_meteor_final" = some (.pint 0)))) :=
  set_data_rollover cexIncoming cexStore cexStore2 rfl rfl

/-- Claim C3: a line that matches neither the event-line grammar nor the
summary grammar is a no-op — with the four sections already present the
document (and the parser state) comes back byte-for-byte unchanged, and
on the very first call (`data=None`) the result is exactly the four
default-initialised sections. -/
theorem parse_log_line_noop (line : String) (d : PyDict) (ps : PState)
    (hlog : pyLogSearch line = none) (hobs : pyObsMatch line = none)
    (hcap : dictHas d "capture" = true) (hdet : dictHas d "detections" = true)
    (hcam : dictHas d "camera" = true) (hup : dictHas d "upload" = true) :
    parse_log_line line (some d) ps = .ok (d, ps) ∧
    parse_log_line line none ps = .ok (defaultSections, ps) := by
  have hni : d.isEmpty = false := ne_nil_of_has d "capture" hcap
  have hsec : sectionInit d = d := by
    simp [sectionInit, hcap, hdet, hcam, hup]
  have hdef : sectionInit defaultSections = defaultSections := rfl
  constructor
  · simp [parse_log_line, hni, hsec, hlog, hobs, pure, Except.pure]
  · simp [parse_log_line, hdef, hlog, hobs, pure, Except.pure]

/-- Witness for `parse_log_line_noop` at the concrete line
`Hello world!` and the default document. -/
theorem parse_log_line_noop_witness :
    parse_log_line "Hello world!" (some defaultSections) initPState =
      .ok (defaultSections, initPState) ∧
    parse_log_line "Hello world!" none initPState =
      .ok (defaultSections, initPState) :=
  parse_log_line_noop "Hello world!" defaultSections initPState
    rfl rfl rfl rfl rfl rfl

/-- Claim C10: `get_previous_data` returns the very object stored in the
history ring — at reference level the returned address is a member of
the ring (date-less and dated alike), a mutation through that address is
visible to a later `get_previous_data`, while `get_data` returns a
freshly allocated deep copy: a new address, not in the ring, whose
content equals the current document. -/
theorem get_previous_data_aliases (st : RefStore) (a : Nat) (d2 : PyDict)
    (ha : get_previous_data_ref st = some a) (hlt : a < st.heap.length) :
    a ∈ st.ring ∧
    (get_previous_data_ref { st with heap := st.heap.set a d2 } = some a ∧
      heapRead (st.heap.set a d2) a = d2) ∧
    ((get_data_ref st).2 = st.heap.length ∧
      ((∀ x ∈ st.ring, x < st.heap.length) → (get_data_ref st).2 ∉ st.ring) ∧
      heapRead (get_data_ref st).1.heap (get_data_ref st).2 =
        heapRead st.heap st.current) ∧
    (∀ date b, get_previous_data_ref_date date st = .ok (some b) → b ∈ st.ring) := by
  have hmem : a ∈ st.ring := by
    unfold get_previous_data_ref at ha
    by_cases he : st.ring.isEmpty
    · rw [if_pos he] at ha
      cases ha
    · rw [if_neg he] at ha
      exact getLast?_some_mem _ _ ha
  refine ⟨hmem, ⟨?_, ?_⟩, ⟨rfl, ?_, ?_⟩, ?_⟩
  · unfold get_previous_data_ref at ha ⊢
    exact ha
  · exact getD_set_self st.heap a d2 hlt
  · intro hwf hmem2
    have he : (get_data_ref st).2 = st.heap.length := rfl
    have h3 := hwf _ hmem2
    rw [he] at h3
    omega
  · show heapRead (st.heap ++ [heapRead st.heap st.current]) st.heap.length =
      heapRead st.heap st.current
    exact getD_concat_length _ _
  · intro date b hb
    unfold get_previous_data_ref_date at hb
    by_cases he : st.ring.isEmpty
    · rw [if_pos he] at hb
      cases hb
    · rw [if_neg he] at hb
      exact findPreviousByDateRef_mem st.heap st.ring date b hb

/-- Witness for `get_previous_data_aliases` at a concrete two-object
heap whose ring holds the address of the second object. -/
theorem get_previous_data_aliases_witness :
    (1 : Nat) ∈ ({ heap := [cexPrevDoc, cexIncoming], current := 0,
                   ring := [1] } : RefStore).ring ∧
    (get_previous_data_ref { heap := ([cexPrevDoc, cexIncoming] : List PyDict).set 1 [],
                             current := 0, ring := [1] } = some 1 ∧
      heapRead (([cexPrevDoc, cexIncoming] : List PyDict).set 1 []) 1 = []) ∧
    ((get_data_ref { heap := [cexPrevDoc, cexIncoming], current := 0,
                     ring := [1] }).2 = 2 ∧
      ((∀ x ∈ ({ heap := [cexPrevDoc, cexIncoming], current := 0,
                 ring := [1] } : RefStore).ring, x < 2) →
        (get_data_ref { heap := [cexPrevDoc, cexIncoming], current := 0,
                        ring := [1] }).2 ∉
          ({ heap := [cexPrevDoc, cexIncoming], current := 0,
             ring := [1] } : RefStore).ring) ∧
      heapRead (get_data_ref { heap := [cexPrevDoc, cexIncoming], current := 0,
                               ring := [1] }).1.heap
          (get_data_ref { heap := [cexPrevDoc, cexIncoming], current := 0,
                          ring := [1] }).2 =
        heapRead [cexPrevDoc, cexIncoming] 0) ∧
    (∀ date b,
      get_previous_data_ref_date date { heap := [cexPrevDoc, cexIncoming],
                                        current := 0, ring := [1] } =
        .ok (some b) → b ∈ ({ heap := [cexPrevDoc, cexIncoming], current := 0,
                              ring := [1] } : RefStore).ring) :=
  get_previous_data_aliases
    { heap := [cexPrevDoc, cexIncoming], current := 0, ring := [1] } 1 []
    rfl (by decide)

/-- Claim C9 amended: the wrapper caches up to `maxsize` distinct
argument combinations, but all entries share the single function-wide
expiration deadline; on the first call at or after that deadline the
whole cache is cleared, the deadline is reset to `t + lifetime`, and the
requested result is recomputed.  Before the deadline, a cached key is
answered from the cache without recomputation. -/
theorem timed_lru_cache_policy {α β : Type} [DecidableEq α] (f : α → β)
    (maxsize : Nat) (lifetime t : PyQ) (k : α) (st : TLCState α β) :
    (st.expiration ≤ t →
      timed_lru_call f maxsize lifetime t k st =
        (f k, ⟨((k, f k) :: []).take maxsize, t + lifetime, st.calls + 1⟩)) ∧
    (¬ st.expiration ≤ t → ∀ v,
      st.entries.find? (fun p => decide (p.1 = k)) = some (k, v) →
      timed_lru_call f maxsize lifetime t k st =
        (v, ⟨(k, v) :: st.entries.filter (fun p => !decide (p.1 = k)),
             st.expiration, st.calls⟩)) ∧
    ((timed_lru_call f maxsize lifetime t k st).2.entries.length ≤
      max maxsize st.entries.length) := by
  refine ⟨?_, ?_, ?_⟩
  · intro hexp
    simp [timed_lru_call, hexp, lru_call]
  · intro hexp v hfind
    simp [timed_lru_call, hexp, lru_call, hfind]
  · by_cases hexp : st.expiration ≤ t
    · simp only [timed_lru_call, hexp, if_pos, lru_call, List.find?_nil]
      exact le_trans (List.length_take_le _ _) (Nat.le_max_left _ _)
    · simp only [timed_lru_call, hexp, if_neg, not_false_eq_true]
      unfold lru_call
      cases hfind : st.entries.find? (fun p => decide (p.1 = k)) with
      | none =>
        simp only [List.length_cons]
        exact le_trans (List.length_take_le _ _) (Nat.le_max_left _ _)
      | some p =>
        obtain ⟨k0, v0⟩ := p
        simp only [List.length_cons]
        have := filter_length_lt_of_find? (fun p => decide (p.1 = k))
          st.entries (k0, v0) hfind
        have h2 : (st.entries.filter
            (fun p => !decide (p.1 = k))).length < st.entries.length := this
        omega

/-- Witness for `timed_lru_cache_policy`: both the expired and the
cached-hit branch at concrete states. -/
theorem timed_lru_cache_policy_witness :
    ((tlcInit Nat Nat 10 0).expiration ≤ (10 : PyQ) →
      timed_lru_call id 8 10 (10 : PyQ) 5 (tlcInit Nat Nat 10 0) =
        (5, ⟨((5, 5) :: []).take 8, (10 : PyQ) + 10,
             (tlcInit Nat Nat 10 0).calls + 1⟩)) ∧
    (¬ (tlcInit Nat Nat 10 0).expiration ≤ (10 : PyQ) → ∀ v,
      (tlcInit Nat Nat 10 0).entries.find?
          (fun p => decide (p.1 = (5 : Nat))) = some (5, v) →
      timed_lru_call id 8 10 (10 : PyQ) 5 (tlcInit Nat Nat 10 0) =
        (v, ⟨(5, v) :: (tlcInit Nat Nat 10 0).entries.filter
               (fun p => !decide (p.1 = (5 : Nat))),
             (tlcInit Nat Nat 10 0).expiration, (tlcInit Nat Nat 10 0).calls⟩)) ∧
    ((timed_lru_call id 8 10 (10 : PyQ) 5 (tlcInit Nat Nat 10 0)).2.entries.length ≤
      max 8 (tlcInit Nat Nat 10 0).entries.length) :=
  timed_lru_cache_policy id 8 10 (10 : PyQ) 5 (tlcInit Nat Nat 10 0)

/-! Splitting lemmas for the tail model. -/

theorem splitNl_cons_no_nl (x : List Char) (t : List Char) (hx : '\n' ∉ x) :
    splitNl (x ++ '\n' :: t) = x :: splitNl t := by
  induction x with
  | nil => simp [splitNl]
  | cons c x0 ih =>
    have hc : ¬ c = '\n' := fun h => hx (by simp [h])
    have hx0 : '\n' ∉ x0 := fun h => hx (List.mem_cons_of_mem c h)
    rw [List.cons_append]
    rw [splitNl]
    rw [if_neg hc]
    rw [ih hx0]

theorem splitNl_joinNl (ls : List (List Char))
    (hls : ∀ x ∈ ls, '\n' ∉ x) :
    splitNl (joinNl ls) = ls ++ [[]] := by
  induction ls with
  | nil => rfl
  | cons x t ih =>
    have hx : '\n' ∉ x := hls x (List.mem_cons_self x t)
    have ht : ∀ y ∈ t, '\n' ∉ y := fun y hy => hls y (List.mem_cons_of_mem x hy)
    show splitNl (x ++ '\n' :: joinNl t) = (x :: t) ++ [[]]
    rw [splitNl_cons_no_nl x (joinNl t) hx, ih ht]
    rfl

/-- Claim C7 amended: the polling loop keeps no byte offset; every cycle
re-reads the newest log with `tail -n100` and feeds all of its lines to
the parser.  After appending one complete line `l` to a file of complete
lines `ls`, the next poll feeds the last `min 100 (|ls| + 1)` lines —
the new line is delivered, but every other fed line is a re-delivery of
previously read content (plus the empty-string artefact of the final
newline). -/
theorem polled_lines_tail100 (ls : List (List Char)) (l : List Char)
    (hls : ∀ x ∈ ls, '\n' ∉ x) (hl : '\n' ∉ l) :
    polled_lines (joinNl (ls ++ [l])) =
      ((ls ++ [l]).drop (ls.length + 1 - 100)) ++ [[]] := by
  have hall : ∀ x ∈ ls ++ [l], '\n' ∉ x := by
    intro x hx
    rcases List.mem_append.mp hx with h | h
    · exact hls x h
    · rw [List.mem_singleton.mp h]
      exact hl
  unfold polled_lines
  rw [splitNl_joinNl (ls ++ [l]) hall]
  have hlast : ((ls ++ [l]) ++ [([] : List Char)]).getLast? = some [] :=
    List.getLast?_concat _
  simp [hlast, List.dropLast_concat]

/-- Witness for `polled_lines_tail100` at the two-line file appended
with `C`. -/
theorem polled_lines_tail100_witness :
    polled_lines (joinNl ([['A'], ['B']] ++ [['C']])) =
      (([['A'], ['B']] ++ [['C']]).drop ([['A'], ['B']].length + 1 - 100)) ++ [[]] :=
  polled_lines_tail100 [['A'], ['B']] ['C'] (by decide) (by decide)

end RMS
